import Mathlib

/-!
# odo: component state predicate and Kubernetes container helpers

A shallow embedding of

* `pkg/watch/status.go` (the `State` constants and `componentCanSyncFile`),
* `pkg/devfile/adapters/kubernetes/utils/utils.go` (volume, env-var and
  entrypoint helpers working on `corev1.Container` lists), and
* `standaloneMode` of the vendored service-catalog `options.go`,

followed by theorems about them.

Modelling conventions.

* A Go `string` is a `String`; the Go `int` handed to `strconv.Itoa` is an `Int`.
* The slices the code grows with `append` (`Env` and `VolumeMounts` of a container)
  are slice values over a memory of backing arrays: a slice names an array, an
  offset, a length and a capacity, and `append` writes behind the slice when the
  capacity allows and moves to a new array otherwise. Two slices can therefore
  share storage, as they can in Go.
* A slice the code only assigns or takes the length of (`Command`, `Args`) is a
  `List`.
* A slice or pointer that the code compares with, or returns as, `nil` is an
  `Option`: `none` is `nil`.
* A function that mutates the elements of the slice it was given returns the
  contents of that slice after the call next to its Go results.
* `for i := range xs` is a left fold over `List.range (len xs)`.
-/

namespace Odo

/-! ## `pkg/watch/status.go` -/

namespace Watch

/-- Go: `type State string`. -/
abbrev State := String

def StateWaitDeployment : State := "WaitDeployment"

def StateSyncOutdated : State := "SyncOutdated"

def StateReady : State := "Ready"

/-- Go: `func componentCanSyncFile(state State) bool`. -/
def componentCanSyncFile (state : State) : Bool :=
  state == StateReady

end Watch

/-! ## Go slices over shared backing arrays -/

namespace Go

/-- A Go slice value: a pointer to element `off` of the backing array `arr`, a
length and a capacity. The nil slice has length and capacity 0. -/
structure Slice where
  arr : Nat
  off : Nat
  len : Nat
  cap : Nat
  deriving DecidableEq, Repr

/-- The nil slice. -/
def Slice.nil : Slice := { arr := 0, off := 0, len := 0, cap := 0 }

/-- The backing arrays of the slices of one element type: `cells a i` is element
`i` of array `a`, and the arrays numbered below `next` are the allocated ones. -/
structure Mem (α : Type) where
  cells : Nat → Nat → α
  next : Nat

/-- The elements of a slice, as `range` and indexing see them. -/
def Mem.view {α : Type} (m : Mem α) (s : Slice) : List α :=
  (List.range s.len).map fun k => m.cells s.arr (s.off + k)

/-- Go: `append(s, x)`. With room behind the slice (`len < cap`) the element is
written into the backing array in place, whoever else looks at that cell; without
room a new array is allocated, the elements are copied and the rest of the new
array holds the zero value. `grow` is the spare capacity the runtime adds to a new
array, by the old capacity. -/
def append {α : Type} (grow : Nat → Nat) (zero : α) (m : Mem α) (s : Slice) (x : α) :
    Slice × Mem α :=
  if s.len < s.cap then
    ({ s with len := s.len + 1 },
     { m with cells := fun a i => if a = s.arr ∧ i = s.off + s.len then x else m.cells a i })
  else
    ({ arr := m.next, off := 0, len := s.len + 1, cap := s.len + 1 + grow s.cap },
     { cells := fun a i =>
         if a = m.next then
           if i < s.len then m.cells s.arr (s.off + i) else if i = s.len then x else zero
         else m.cells a i,
       next := m.next + 1 })

/-- Go: `s = append(s, x)` for each `x` of `xs` in turn. -/
def appendAll {α : Type} (grow : Nat → Nat) (zero : α) (m : Mem α) (s : Slice) (xs : List α) :
    Slice × Mem α :=
  xs.foldl (fun st x => append grow zero st.2 st.1 x) (s, m)

/-- A slice as Go makes them: not longer than its capacity, and over an allocated
array unless it has no capacity at all. -/
@[reducible] def Slice.WF {α : Type} (m : Mem α) (s : Slice) : Prop :=
  s.len ≤ s.cap ∧ (s.cap = 0 ∨ s.arr < m.next)

/-- Two slices share no backing storage: one of them has no capacity, or they are
over different arrays, or the cells up to the capacity of the one end before the
other begins. -/
@[reducible] def Slice.Disjoint (s t : Slice) : Prop :=
  s.cap = 0 ∨ t.cap = 0 ∨ s.arr ≠ t.arr ∨ s.off + s.cap ≤ t.off ∨ t.off + t.cap ≤ s.off

/-- Every element of the second list is the element of the first at its place, or
one that satisfies `Q`. -/
def Overwritten {α : Type} (Q : α → Prop) (l l' : List α) : Prop :=
  List.Forall₂ (fun a b => b = a ∨ Q b) l l'

/-- Go: `c := &cs[i]; f(c)`, where `f` works on the memory as well: the element at
index `i` is replaced by what `f` makes of it. -/
def updateAtIn {α C : Type} (st : List C × Mem α) (i : Nat)
    (f : Mem α → C → C × Mem α) : List C × Mem α :=
  match st.1[i]? with
  | some c =>
    let r := f st.2 c
    (st.1.set i r.1, r.2)
  | none => st

/-- The step `f` run over the elements of a list from first to last, the memory
handed on from one to the next. -/
def runSteps {α C : Type} (f : Mem α → C → C × Mem α) : List C → Mem α → List C × Mem α
  | [], m => ([], m)
  | c :: cs, m =>
    let r := f m c
    let rs := runSteps f cs r.2
    (r.1 :: rs.1, rs.2)

/-- The step that appends to the slice `get c` the values `vals` picks from `c`
and the present view of that slice, and stores the new slice with `set`. -/
def stepAppend {α C : Type} (get : C → Slice) (set : C → Slice → C)
    (vals : C → List α → List α) (grow : Nat → Nat) (zero : α) (m : Mem α) (c : C) :
    C × Mem α :=
  let r := appendAll grow zero m (get c) (vals c (m.view (get c)))
  (set c r.1, r.2)

end Go

/-! ## The `corev1` types used by `utils.go`

Only their uses are part of the embedded sources; the structures below carry the
members the helpers read or write and a few neighbouring ones, so that "every
other field" has content. -/

namespace Corev1

structure EnvVar where
  Name : String
  Value : String
  deriving DecidableEq, Repr

structure VolumeMount where
  Name : String
  ReadOnly : Bool
  MountPath : String
  SubPath : String
  deriving DecidableEq, Repr

/-- The zero value of `corev1.EnvVar`. -/
def EnvVar.zero : EnvVar := { Name := "", Value := "" }

/-- The zero value of `corev1.VolumeMount`. -/
def VolumeMount.zero : VolumeMount :=
  { Name := "", ReadOnly := false, MountPath := "", SubPath := "" }

/-- Go: `corev1.Container`. `Env` is a slice over the memory of `EnvVar` arrays and
`VolumeMounts` a slice over the memory of `VolumeMount` arrays. -/
structure Container where
  Name : String
  Image : String
  Command : List String
  Args : List String
  WorkingDir : String
  Env : Go.Slice
  VolumeMounts : Go.Slice
  deriving DecidableEq, Repr

structure HostPathVolumeSource where
  Path : String
  deriving DecidableEq, Repr

structure EmptyDirVolumeSource where
  Medium : String
  SizeLimit : Option String
  deriving DecidableEq, Repr

structure SecretVolumeSource where
  SecretName : String
  deriving DecidableEq, Repr

structure PersistentVolumeClaimVolumeSource where
  ClaimName : String
  ReadOnly : Bool
  deriving DecidableEq, Repr

structure ConfigMapVolumeSource where
  Name : String
  deriving DecidableEq, Repr

/-- Go: `corev1.VolumeSource`, a struct of pointers of which at most one is
meant to be set; `none` is the nil pointer. -/
structure VolumeSource where
  HostPath : Option HostPathVolumeSource
  EmptyDir : Option EmptyDirVolumeSource
  Secret : Option SecretVolumeSource
  PersistentVolumeClaim : Option PersistentVolumeClaimVolumeSource
  ConfigMap : Option ConfigMapVolumeSource
  deriving DecidableEq, Repr

/-- The zero value of `corev1.VolumeSource`: every pointer nil. -/
def VolumeSource.zero : VolumeSource :=
  { HostPath := none, EmptyDir := none, Secret := none,
    PersistentVolumeClaim := none, ConfigMap := none }

structure Volume where
  Name : String
  VolumeSource : VolumeSource
  deriving DecidableEq, Repr

end Corev1

/-! ## Packages `utils.go` imports -/

/-- Constants of package `storage` used by `utils.go`; their values are not part
of the embedded sources, so they are parameters. -/
structure Storage where
  OdoSourceVolume : String
  SharedDataVolumeName : String
  SharedDataMountPath : String

/-- Constants of package `adaptersCommon` used by `utils.go`. -/
structure AdaptersCommon where
  EnvProjectsRoot : String
  EnvDebugPort : String

structure ExecCommand where
  Component : String
  CommandLine : String
  deriving DecidableEq, Repr

/-- Go: `v1alpha2.Command`, of which `utils.go` reads the `Exec` pointer only. -/
structure Command where
  Id : String
  Exec : Option ExecCommand
  deriving DecidableEq, Repr

/-- Go: `devfileParser.DevfileObj`, of which `utils.go` reads `Data` only. -/
structure DevfileObj (D : Type) where
  Data : D

/-- The three functions of package `libdevfile` that `utils.go` calls. A Go
result `(Command, error)` is an `Except`: `error e` when `err != nil`. -/
structure Libdevfile (D Err : Type) where
  GetRunCommand : D → String → Except Err Command
  GetDebugCommand : D → String → Except Err Command
  ShouldExecCommandRunOnContainer : Option ExecCommand → String → Bool

/-- The base-10 digits of `n`, most significant first; `fuel` bounds the number
of digits. -/
def decimalDigits : Nat → Nat → List Nat
  | 0, _ => []
  | fuel + 1, n => if n < 10 then [n] else decimalDigits fuel (n / 10) ++ [n % 10]

/-- The character of a digit: `'0'` for 0 up to `'9'` for 9. -/
def digitChar (d : Nat) : Char := Char.ofNat (48 + d)

/-- Go: `strconv.Itoa`, the base-10 text of an integer: a minus sign for a negative
number, then the digits of its absolute value. -/
def Itoa (i : Int) : String :=
  String.mk
    ((if i < 0 then ['-'] else []) ++
      (decimalDigits (i.natAbs + 1) i.natAbs).map digitChar)

/-! ## `pkg/devfile/adapters/kubernetes/utils/utils.go` -/

namespace Utils

open Corev1

/-- Go: `container := &containers[i]; f(container)`: the element at index `i`
is replaced by what `f` makes of it. -/
def updateAt (containers : List Container) (i : Nat) (f : Container → Container) :
    List Container :=
  match containers[i]? with
  | some container => containers.set i (f container)
  | none => containers

/-- Go: `func GetOdoContainerVolumes(sourcePVCName string) []corev1.Volume`. -/
def GetOdoContainerVolumes (storage : Storage) (sourcePVCName : String) : List Volume :=
  let sourceVolume : Volume :=
    if sourcePVCName != "" then
      { Name := storage.OdoSourceVolume,
        VolumeSource :=
          { VolumeSource.zero with
            PersistentVolumeClaim := some { ClaimName := sourcePVCName, ReadOnly := false } } }
    else
      { Name := storage.OdoSourceVolume, VolumeSource := VolumeSource.zero }
  [ sourceVolume,
    { Name := storage.SharedDataVolumeName,
      VolumeSource :=
        { VolumeSource.zero with EmptyDir := some { Medium := "", SizeLimit := none } } } ]

/-- Go: `func isEnvPresent(EnvVars []corev1.EnvVar, envVarName string) bool`. -/
def isEnvPresent (EnvVars : List EnvVar) (envVarName : String) : Bool :=
  EnvVars.foldl (fun isPresent envVar => if envVar.Name == envVarName then true else isPresent)
    false

/-- The body of the inner loop of `AddOdoProjectVolume`: the state is the local
copy `container`, the slice `*containers` and the memory of the mounts. -/
def addProjectMount (storage : Storage) (common : AdaptersCommon) (grow : Nat → Nat) (i : Nat)
    (st : Container × List Container × Go.Mem VolumeMount) (env : EnvVar) :
    Container × List Container × Go.Mem VolumeMount :=
  if env.Name == common.EnvProjectsRoot then
    let r := Go.append grow VolumeMount.zero st.2.2 st.1.VolumeMounts
      { Name := storage.OdoSourceVolume, ReadOnly := false,
        MountPath := env.Value, SubPath := "" }
    let container : Container := { st.1 with VolumeMounts := r.1 }
    (container, st.2.1.set i container, r.2)
  else st

/-- Go: `func AddOdoProjectVolume(containers *[]corev1.Container)`. `envs` is the
memory the `Env` slices are read from and `mounts` the memory of the
`VolumeMounts` slices. The result is what `containers` points to after the call
(`none`: the nil pointer) and the memory of the mounts after the call. -/
def AddOdoProjectVolume (storage : Storage) (common : AdaptersCommon) (grow : Nat → Nat)
    (envs : Go.Mem EnvVar) (mounts : Go.Mem VolumeMount)
    (containers : Option (List Container)) :
    Option (List Container) × Go.Mem VolumeMount :=
  match containers with
  | none => (none, mounts)
  | some cs =>
    let r := (List.range cs.length).foldl
      (fun (st : List Container × Go.Mem VolumeMount) i =>
        match st.1[i]? with
        | none => st
        | some container =>
          let r := (envs.view container.Env).foldl (addProjectMount storage common grow i)
            (container, st.1, st.2)
          (r.2.1, r.2.2))
      (cs, mounts)
    (some r.1, r.2)

/-- Go: `func AddOdoMandatoryVolume(containers *[]corev1.Container)`. The result
is what `containers` points to after the call (`none`: the nil pointer) and the
memory of the mounts after the call. -/
def AddOdoMandatoryVolume (storage : Storage) (grow : Nat → Nat)
    (mounts : Go.Mem VolumeMount) (containers : Option (List Container)) :
    Option (List Container) × Go.Mem VolumeMount :=
  match containers with
  | none => (none, mounts)
  | some cs =>
    let r := (List.range cs.length).foldl
      (fun (st : List Container × Go.Mem VolumeMount) i =>
        match st.1[i]? with
        | none => st
        | some container =>
          let r := Go.append grow VolumeMount.zero st.2 container.VolumeMounts
            { Name := storage.SharedDataVolumeName, ReadOnly := false,
              MountPath := storage.SharedDataMountPath, SubPath := "" }
          let container : Container := { container with VolumeMounts := r.1 }
          (st.1.set i container, r.2))
      (cs, mounts)
    (some r.1, r.2)

/-- Go: `func overrideContainerCommandAndArgsIfNeeded(container *corev1.Container)`. -/
def overrideContainerCommandAndArgsIfNeeded (container : Container) : Container :=
  if container.Command.length != 0 || container.Args.length != 0 then container
  else { container with Command := ["tail"], Args := ["-f", "/dev/null"] }

/-- What a call of one of the two `Update...` functions leaves behind: the two Go
results (`none` is `nil`) and the contents of the slice the caller passed in. -/
structure Outcome (Err : Type) where
  containers : Option (List Container)
  err : Option Err
  mem : Option (List Container)

/-- The loop body of `UpdateContainersEntrypointsIfNeeded` on one container. -/
def entrypointStep {D Err : Type} (lib : Libdevfile D Err) (runCommand debugCommand : Command)
    (container : Container) : Container :=
  let n := container.Name
  let container :=
    if lib.ShouldExecCommandRunOnContainer runCommand.Exec n then
      overrideContainerCommandAndArgsIfNeeded container
    else container
  if lib.ShouldExecCommandRunOnContainer debugCommand.Exec n then
    overrideContainerCommandAndArgsIfNeeded container
  else container

/-- Go: `func UpdateContainersEntrypointsIfNeeded(devfileObj, containers,
devfileRunCmd, devfileDebugCmd) ([]corev1.Container, error)`. -/
def UpdateContainersEntrypointsIfNeeded {D Err : Type} (lib : Libdevfile D Err)
    (devfileObj : DevfileObj D) (containers : Option (List Container))
    (devfileRunCmd devfileDebugCmd : String) : Outcome Err :=
  match lib.GetRunCommand devfileObj.Data devfileRunCmd with
  | .error err => { containers := none, err := some err, mem := containers }
  | .ok runCommand =>
    match lib.GetDebugCommand devfileObj.Data devfileDebugCmd with
    | .error err => { containers := none, err := some err, mem := containers }
    | .ok debugCommand =>
      let mem := containers.map fun cs =>
        (List.range cs.length).foldl
          (fun mem i => updateAt mem i (entrypointStep lib runCommand debugCommand)) cs
      { containers := mem, err := none, mem := mem }

/-- What a call of `UpdateContainerEnvVars` leaves behind: the two Go results
(`none` is `nil`), the contents of the slice the caller passed in, and the memory
of the `Env` slices. -/
structure EnvVarsOutcome (Err : Type) where
  containers : Option (List Container)
  err : Option Err
  mem : Option (List Container)
  envs : Go.Mem EnvVar

/-- The loop body of `UpdateContainerEnvVars` on one container, in the memory
`envs` of the `Env` slices. -/
def envVarStep {D Err : Type} (lib : Libdevfile D Err) (common : AdaptersCommon)
    (grow : Nat → Nat) (debugCommand : Command) (devfileDebugPort : Int)
    (envs : Go.Mem EnvVar) (container : Container) : Container × Go.Mem EnvVar :=
  if lib.ShouldExecCommandRunOnContainer debugCommand.Exec container.Name then
    if !isEnvPresent (envs.view container.Env) common.EnvDebugPort then
      let r := Go.append grow EnvVar.zero envs container.Env
        { Name := common.EnvDebugPort, Value := Itoa devfileDebugPort }
      ({ container with Env := r.1 }, r.2)
    else (container, envs)
  else (container, envs)

/-- Go: `func UpdateContainerEnvVars(devfileObj, containers, devfileDebugCmd,
devfileDebugPort) ([]corev1.Container, error)`, in the memory `envs` of the `Env`
slices. -/
def UpdateContainerEnvVars {D Err : Type} (lib : Libdevfile D Err) (common : AdaptersCommon)
    (grow : Nat → Nat) (devfileObj : DevfileObj D) (envs : Go.Mem EnvVar)
    (containers : Option (List Container))
    (devfileDebugCmd : String) (devfileDebugPort : Int) : EnvVarsOutcome Err :=
  match lib.GetDebugCommand devfileObj.Data devfileDebugCmd with
  | .error err => { containers := none, err := some err, mem := containers, envs := envs }
  | .ok debugCommand =>
    match containers with
    | none => { containers := none, err := none, mem := none, envs := envs }
    | some cs =>
      let r := (List.range cs.length).foldl
        (fun st i =>
          Go.updateAtIn st i (envVarStep lib common grow debugCommand devfileDebugPort))
        (cs, envs)
      { containers := some r.1, err := none, mem := some r.1, envs := r.2 }

end Utils

/-! ## The stated effect of the helpers on one container -/

namespace Utils

open Corev1

/-- The shared-data mount: `{Name: storage.SharedDataVolumeName, MountPath:
storage.SharedDataMountPath}`, every other member zero. -/
def sharedDataMount (storage : Storage) : VolumeMount :=
  { Name := storage.SharedDataVolumeName, ReadOnly := false,
    MountPath := storage.SharedDataMountPath, SubPath := "" }

/-- One mount `{Name: storage.OdoSourceVolume, MountPath: v}` for each entry of
`env` named `EnvProjectsRoot` with value `v`, in the order of `env`. -/
def projectMounts (storage : Storage) (common : AdaptersCommon) (env : List EnvVar) :
    List VolumeMount :=
  (env.filter (fun e => e.Name == common.EnvProjectsRoot)).map
    (fun e => { Name := storage.OdoSourceVolume, ReadOnly := false,
                MountPath := e.Value, SubPath := "" })

/-- The debug-port entry: `{Name: EnvDebugPort, Value: strconv.Itoa(port)}`. -/
def debugPortEntry (common : AdaptersCommon) (devfileDebugPort : Int) : EnvVar :=
  { Name := common.EnvDebugPort, Value := Itoa devfileDebugPort }

/-- The entries `UpdateContainerEnvVars` has to add to a container whose `Env`
reads `env`: the debug-port entry when the debug command targets the container
and `env` has no entry of that name, nothing otherwise. -/
def debugPortEntries {D Err : Type} (lib : Libdevfile D Err) (common : AdaptersCommon)
    (debugCommand : Command) (devfileDebugPort : Int) (container : Container)
    (env : List EnvVar) : List EnvVar :=
  if lib.ShouldExecCommandRunOnContainer debugCommand.Exec container.Name then
    if !isEnvPresent env common.EnvDebugPort then [debugPortEntry common devfileDebugPort]
    else []
  else []

end Utils

/-! ## `pkg/watch/status.go`: the component status -/

namespace Watch

/-- Go: `v1alpha2.Endpoint`, of which `status.go` only stores values. -/
structure Endpoint where
  Name : String
  TargetPort : Int
  deriving DecidableEq, Repr

/-- Go: `type ComponentStatus struct`. The map `EndpointsForwarded` is the list of
its key and value pairs. -/
structure ComponentStatus where
  State : State
  PostStartEventsDone : Bool
  RunExecuted : Bool
  EndpointsForwarded : List (String × List Endpoint)
  deriving DecidableEq, Repr

/-- The UTF-8 bytes of a string, as numbers. -/
def bytes (s : String) : List Nat :=
  (s.data.flatMap String.utf8EncodeChar).map UInt8.toNat

/-- Lexicographic comparison of two byte sequences. -/
def lessBytes : List Nat → List Nat → Bool
  | [], [] => false
  | [], _ :: _ => true
  | _ :: _, [] => false
  | a :: as, b :: bs => if a < b then true else if b < a then false else lessBytes as bs

/-- Go: the operator `<` on two values of a string type such as `State`, which
compares them byte by byte. It is the only order `type State string` carries. -/
def stringLess (a b : State) : Bool :=
  lessBytes (bytes a) (bytes b)

/-- Modelled from the spec: the place of a state in the lifecycle order
`WaitDeployment → SyncOutdated → Ready` of the data model. `status.go` declares the
three constants and no order on them; a value that is none of the three has no
place. -/
def stage (s : State) : Option Nat :=
  if s == StateWaitDeployment then some 0
  else if s == StateSyncOutdated then some 1
  else if s == StateReady then some 2
  else none

/-- Modelled from the spec: the one failure condition of `Transition`. -/
inductive TransitionError where
  | InvalidTransition
  deriving DecidableEq, Repr

/-- Modelled from the spec: `Transition(component, newState)` of the Component
State Machine contract, which `status.go` does not contain (it declares `State`,
its constants and `ComponentStatus` only). The call validates the move: a forward
skip past a stage (the new state more than one stage after the current one) fails
with `InvalidTransition`; a move to the next stage, to the same stage or back to an
earlier one sets the state. The result is the component's status after the call
and the failure, if any. The spec names no move to or from a value that is none
of the three states; the model rejects those. -/
def Transition (status : ComponentStatus) (newState : State) :
    ComponentStatus × Option TransitionError :=
  match stage status.State, stage newState with
  | some current, some next =>
    if current + 1 < next then (status, some TransitionError.InvalidTransition)
    else ({ status with State := newState }, none)
  | _, _ => (status, some TransitionError.InvalidTransition)

end Watch

/-! ## `vendor/.../service-catalog/cmd/apiserver/app/server/options.go` -/

namespace Server

/-- Go: `os.Getenv(key)`, on an environment given as a map from variable names to
values: the value of the variable, and `""` when it is not set. -/
def Getenv (env : String → Option String) (key : String) : String :=
  match env key with
  | some value => value
  | none => ""

/-- Go: `func standaloneMode() bool`, the process environment made a parameter. -/
def standaloneMode (env : String → Option String) : Bool :=
  let val := Getenv env "SERVICE_CATALOG_STANDALONE"
  val == "true"

end Server

/-! ## Concrete inputs

Used to evaluate the embedded functions on explicit inputs. -/

namespace Example

open Corev1

/-- A devfile with one run command `run` and one debug command `debug`, both
executing in component `runtime`; a command runs on the container that bears the
name of its component. -/
def lib : Libdevfile Unit String :=
  { GetRunCommand := fun _ name =>
      if name == "run" then
        .ok { Id := "run", Exec := some { Component := "runtime", CommandLine := "npm start" } }
      else .error "no run command",
    GetDebugCommand := fun _ name =>
      if name == "debug" then
        .ok { Id := "debug",
              Exec := some { Component := "runtime", CommandLine := "npm run debug" } }
      else .error "no debug command",
    ShouldExecCommandRunOnContainer := fun exec containerName =>
      match exec with
      | none => false
      | some e => e.Component == containerName }

def runCommand : Command :=
  { Id := "run", Exec := some { Component := "runtime", CommandLine := "npm start" } }

def debugCommand : Command :=
  { Id := "debug", Exec := some { Component := "runtime", CommandLine := "npm run debug" } }

def storage : Storage :=
  { OdoSourceVolume := "odo-projects",
    SharedDataVolumeName := "odo-shared-data",
    SharedDataMountPath := "/opt/odo/" }

def common : AdaptersCommon :=
  { EnvProjectsRoot := "PROJECTS_ROOT", EnvDebugPort := "DEBUG_PORT" }

def devfileObj : DevfileObj Unit := { Data := () }

/-- A runtime that gives a new array as much spare capacity as the old array had
capacity. -/
def grow : Nat → Nat := fun cap => cap

/-- Two arrays of one `EnvVar` each: array 0 for `runtime`, array 1 for `tools`. -/
def envs : Go.Mem EnvVar :=
  { cells := fun a i =>
      if a = 0 ∧ i = 0 then { Name := "PROJECTS_ROOT", Value := "/projects" }
      else if a = 1 ∧ i = 0 then { Name := "DEBUG_PORT", Value := "9000" }
      else EnvVar.zero,
    next := 2 }

/-- No array of mounts is allocated. -/
def mounts : Go.Mem VolumeMount :=
  { cells := fun _ _ => VolumeMount.zero, next := 0 }

def runtime : Container :=
  { Name := "runtime", Image := "node:18", Command := [], Args := [], WorkingDir := "",
    Env := { arr := 0, off := 0, len := 1, cap := 1 }, VolumeMounts := Go.Slice.nil }

def tools : Container :=
  { Name := "tools", Image := "busybox", Command := ["sh"], Args := [], WorkingDir := "/",
    Env := { arr := 1, off := 0, len := 1, cap := 1 }, VolumeMounts := Go.Slice.nil }

def containers : List Container := [runtime, tools]

/-- One array `[A=1, B=2, C=3]` of `EnvVar`s, for containers that share it. -/
def sharedEnvs : Go.Mem EnvVar :=
  { cells := fun a i =>
      if a = 0 ∧ i = 0 then { Name := "A", Value := "1" }
      else if a = 0 ∧ i = 1 then { Name := "B", Value := "2" }
      else if a = 0 ∧ i = 2 then { Name := "C", Value := "3" }
      else EnvVar.zero,
    next := 1 }

/-- A container that the debug command targets, with `Env` the slice `base[0:1:2]`
of the shared array: it reads `[A=1]` and has room for one more entry. -/
def runtimeShort : Container :=
  { Name := "runtime", Image := "node:18", Command := [], Args := [], WorkingDir := "",
    Env := { arr := 0, off := 0, len := 1, cap := 2 }, VolumeMounts := Go.Slice.nil }

/-- A container that the debug command targets, with `Env` the slice `base[0:2:2]`
of the shared array: it reads `[A=1, B=2]`. -/
def runtimeLong : Container :=
  { Name := "runtime", Image := "node:18", Command := [], Args := [], WorkingDir := "",
    Env := { arr := 0, off := 0, len := 2, cap := 2 }, VolumeMounts := Go.Slice.nil }

/-- A container that the debug command does not target, with `Env` the slice
`base[0:2:2]` of the shared array: it reads `[A=1, B=2]`. -/
def toolsLong : Container :=
  { Name := "tools", Image := "busybox", Command := ["sh"], Args := [], WorkingDir := "/",
    Env := { arr := 0, off := 0, len := 2, cap := 2 }, VolumeMounts := Go.Slice.nil }

/-- A container that the debug command targets, with `Env` the slice `base[1:2:3]`
of the shared array: it reads `[B=2]` and has room for one more entry. -/
def runtimeSecond : Container :=
  { Name := "runtime", Image := "node:18", Command := [], Args := [], WorkingDir := "",
    Env := { arr := 0, off := 1, len := 1, cap := 2 }, VolumeMounts := Go.Slice.nil }

/-- A container that the debug command targets, with `Env` the slice `base[0:1:3]`
of the shared array: it reads `[A=1]` and has room for two more entries. -/
def runtimeFirst : Container :=
  { Name := "runtime", Image := "node:18", Command := [], Args := [], WorkingDir := "",
    Env := { arr := 0, off := 0, len := 1, cap := 3 }, VolumeMounts := Go.Slice.nil }

def preMount : VolumeMount :=
  { Name := "pre", ReadOnly := false, MountPath := "/pre", SubPath := "" }

def otherMount : VolumeMount :=
  { Name := "other", ReadOnly := false, MountPath := "/other", SubPath := "" }

/-- One array of four mounts, `[pre, other, zero, zero]`, for containers that share
it. -/
def sharedMounts : Go.Mem VolumeMount :=
  { cells := fun a i =>
      if a = 0 ∧ i = 0 then preMount
      else if a = 0 ∧ i = 1 then otherMount
      else VolumeMount.zero,
    next := 1 }

/-- A container with `VolumeMounts` the slice `base[0:1:2]` of the shared array of
mounts: it reads `[pre]` and has room for one more mount. -/
def mountShort : Container :=
  { Name := "a", Image := "busybox", Command := [], Args := [], WorkingDir := "",
    Env := Go.Slice.nil, VolumeMounts := { arr := 0, off := 0, len := 1, cap := 2 } }

/-- A container with `VolumeMounts` the slice `base[0:2:2]` of the shared array of
mounts: it reads `[pre, other]`. -/
def mountLong : Container :=
  { Name := "b", Image := "busybox", Command := [], Args := [], WorkingDir := "",
    Env := Go.Slice.nil, VolumeMounts := { arr := 0, off := 0, len := 2, cap := 2 } }

/-- Two arrays of one `EnvVar` each: `PROJECTS_ROOT=/a` and `PROJECTS_ROOT=/b`. -/
def projectEnvs : Go.Mem EnvVar :=
  { cells := fun a i =>
      if a = 0 ∧ i = 0 then { Name := "PROJECTS_ROOT", Value := "/a" }
      else if a = 1 ∧ i = 0 then { Name := "PROJECTS_ROOT", Value := "/b" }
      else EnvVar.zero,
    next := 2 }

/-- A container with `PROJECTS_ROOT=/a` and `VolumeMounts` the slice `base[0:1:4]`
of the shared array of mounts. -/
def projectA : Container :=
  { Name := "a", Image := "busybox", Command := [], Args := [], WorkingDir := "",
    Env := { arr := 0, off := 0, len := 1, cap := 1 },
    VolumeMounts := { arr := 0, off := 0, len := 1, cap := 4 } }

/-- A container with `PROJECTS_ROOT=/b` and `VolumeMounts` the same slice
`base[0:1:4]` of the shared array of mounts. -/
def projectB : Container :=
  { Name := "b", Image := "busybox", Command := [], Args := [], WorkingDir := "",
    Env := { arr := 1, off := 0, len := 1, cap := 1 },
    VolumeMounts := { arr := 0, off := 0, len := 1, cap := 4 } }

/-- An environment in which only `SERVICE_CATALOG_STANALONE` is set, to `"true"`. -/
def stanaloneEnv : String → Option String :=
  fun key => if key == "SERVICE_CATALOG_STANALONE" then some "true" else none

/-- An environment in which only `SERVICE_CATALOG_STANDALONE` is set, to `"true"`. -/
def standaloneEnv : String → Option String :=
  fun key => if key == "SERVICE_CATALOG_STANDALONE" then some "true" else none

/-- A component that waits for its deployment. -/
def waiting : Watch.ComponentStatus :=
  { State := Watch.StateWaitDeployment, PostStartEventsDone := false, RunExecuted := false,
    EndpointsForwarded := [] }

end Example

/-! ## Slices and `append`

What `append` does to the slice it is applied to and to every other slice, and
what a loop of appends over a list of containers comes to. -/

namespace Go

variable {α : Type}

theorem Slice.Disjoint.symm {s t : Slice} (h : s.Disjoint t) : t.Disjoint s := by
  unfold Slice.Disjoint at *
  rcases h with h | h | h | h | h
  · exact Or.inr (Or.inl h)
  · exact Or.inl h
  · exact Or.inr (Or.inr (Or.inl fun e => h e.symm))
  · exact Or.inr (Or.inr (Or.inr (Or.inr h)))
  · exact Or.inr (Or.inr (Or.inr (Or.inl h)))

theorem view_eq_of_cells (m m' : Mem α) (s : Slice)
    (h : ∀ k, k < s.len → m'.cells s.arr (s.off + k) = m.cells s.arr (s.off + k)) :
    m'.view s = m.view s := by
  unfold Mem.view
  apply List.map_congr_left
  intro k hk
  exact h k (List.mem_range.1 hk)

theorem view_succ (m : Mem α) (s : Slice) (n : Nat) :
    m.view { s with len := n + 1 } =
      m.view { s with len := n } ++ [m.cells s.arr (s.off + n)] := by
  simp [Mem.view, List.range_succ]

theorem next_append (grow : Nat → Nat) (zero : α) (m : Mem α) (s : Slice) (x : α) :
    m.next ≤ (append grow zero m s x).2.next := by
  unfold append
  split <;> simp

/-- A cell of an allocated array after `append`: the one cell behind the slice is
written when there is room, no other. -/
theorem cells_append (grow : Nat → Nat) (zero : α) (m : Mem α) (s : Slice) (x : α)
    (a i : Nat) (ha : a < m.next) :
    (append grow zero m s x).2.cells a i =
      if s.len < s.cap ∧ a = s.arr ∧ i = s.off + s.len then x else m.cells a i := by
  unfold append
  by_cases hroom : s.len < s.cap
  · simp [hroom]
  · have hne : a ≠ m.next := Nat.ne_of_lt ha
    simp [hroom, hne]

theorem view_append (grow : Nat → Nat) (zero : α) (m : Mem α) (s : Slice) (x : α) :
    (append grow zero m s x).2.view (append grow zero m s x).1 = m.view s ++ [x] := by
  unfold append
  by_cases hroom : s.len < s.cap
  · simp only [hroom, if_true]
    rw [view_succ]
    congr 1
    · apply view_eq_of_cells
      intro k hk
      have hk2 : k < s.len := hk
      have : ¬ (s.off + k = s.off + s.len) := by omega
      simp [this]
    · simp
  · simp only [hroom, if_false]
    unfold Mem.view
    simp only [List.range_succ, List.map_append, List.map_cons, List.map_nil]
    congr 1
    · apply List.map_congr_left
      intro k hk
      have hk' : k < s.len := List.mem_range.1 hk
      simp [hk']
    · simp

theorem WF_append (grow : Nat → Nat) (zero : α) (m : Mem α) (s : Slice) (x : α)
    (h : s.WF m) : (append grow zero m s x).1.WF (append grow zero m s x).2 := by
  unfold append
  by_cases hroom : s.len < s.cap
  · simp only [hroom, if_true, Slice.WF]
    rcases h with ⟨_, h2⟩
    refine ⟨hroom, ?_⟩
    rcases h2 with h2 | h2
    · omega
    · exact Or.inr h2
  · simp only [hroom, if_false, Slice.WF]
    refine ⟨by omega, Or.inr (by omega)⟩

/-- A slice that shares no storage with `s` is not touched by `append` on `s`. -/
theorem frame_append (grow : Nat → Nat) (zero : α) (m : Mem α) (s : Slice) (x : α)
    (t : Slice) (ht : t.WF m) (hd : t.Disjoint s) :
    (append grow zero m s x).2.view t = m.view t ∧
      t.WF (append grow zero m s x).2 ∧
      t.Disjoint (append grow zero m s x).1 := by
  refine ⟨?_, ?_, ?_⟩
  · apply view_eq_of_cells
    intro k hk
    have harr : t.arr < m.next := by
      rcases ht with ⟨h1, h2 | h2⟩
      · omega
      · exact h2
    rw [cells_append grow zero m s x _ _ harr]
    have : ¬ (s.len < s.cap ∧ t.arr = s.arr ∧ t.off + k = s.off + s.len) := by
      rintro ⟨h1, h2, h3⟩
      rcases ht with ⟨hlen, _⟩
      rcases hd with h | h | h | h | h
      · omega
      · omega
      · exact h h2
      · omega
      · omega
    simp [this]
  · have := next_append grow zero m s x
    rcases ht with ⟨h1, h2 | h2⟩
    · exact ⟨h1, Or.inl h2⟩
    · exact ⟨h1, Or.inr (by omega)⟩
  · unfold append
    by_cases hroom : s.len < s.cap
    · simp only [hroom, if_true]
      exact hd
    · simp only [hroom, if_false, Slice.Disjoint]
      rcases ht with ⟨h1, h2 | h2⟩
      · exact Or.inl h2
      · exact Or.inr (Or.inr (Or.inl (by omega)))


theorem appendAll_nil (grow : Nat → Nat) (zero : α) (m : Mem α) (s : Slice) :
    appendAll grow zero m s [] = (s, m) := rfl

theorem appendAll_cons (grow : Nat → Nat) (zero : α) (m : Mem α) (s : Slice) (x : α)
    (xs : List α) :
    appendAll grow zero m s (x :: xs) =
      appendAll grow zero (append grow zero m s x).2 (append grow zero m s x).1 xs := rfl

theorem view_appendAll (grow : Nat → Nat) (zero : α) (xs : List α) :
    ∀ (m : Mem α) (s : Slice),
      (appendAll grow zero m s xs).2.view (appendAll grow zero m s xs).1 = m.view s ++ xs := by
  induction xs with
  | nil => intro m s; simp [appendAll_nil]
  | cons x xs ih =>
    intro m s
    rw [appendAll_cons, ih, view_append, List.append_assoc]
    rfl

theorem next_appendAll (grow : Nat → Nat) (zero : α) (xs : List α) :
    ∀ (m : Mem α) (s : Slice), m.next ≤ (appendAll grow zero m s xs).2.next := by
  induction xs with
  | nil => intro m s; exact Nat.le_refl _
  | cons x xs ih =>
    intro m s
    rw [appendAll_cons]
    exact Nat.le_trans (next_append grow zero m s x) (ih _ _)

theorem WF_appendAll (grow : Nat → Nat) (zero : α) (xs : List α) :
    ∀ (m : Mem α) (s : Slice), s.WF m →
      (appendAll grow zero m s xs).1.WF (appendAll grow zero m s xs).2 := by
  induction xs with
  | nil => intro m s h; exact h
  | cons x xs ih =>
    intro m s h
    rw [appendAll_cons]
    exact ih _ _ (WF_append grow zero m s x h)

theorem frame_appendAll (grow : Nat → Nat) (zero : α) (xs : List α) :
    ∀ (m : Mem α) (s t : Slice), t.WF m → t.Disjoint s →
      (appendAll grow zero m s xs).2.view t = m.view t ∧
        t.WF (appendAll grow zero m s xs).2 ∧
        t.Disjoint (appendAll grow zero m s xs).1 := by
  induction xs with
  | nil => intro m s t ht hd; exact ⟨rfl, ht, hd⟩
  | cons x xs ih =>
    intro m s t ht hd
    rw [appendAll_cons]
    obtain ⟨h1, h2, h3⟩ := frame_append grow zero m s x t ht hd
    obtain ⟨k1, k2, k3⟩ := ih _ _ t h2 h3
    exact ⟨k1.trans h1, k2, k3⟩

section Steps

variable {C : Type} (get : C → Slice) (set : C → Slice → C) (vals : C → List α → List α)
  (grow : Nat → Nat) (zero : α)

theorem length_runSteps (f : Mem α → C → C × Mem α) (cs : List C) :
    ∀ m : Mem α, (runSteps f cs m).1.length = cs.length := by
  induction cs with
  | nil => intro m; rfl
  | cons c cs ih => intro m; simp [runSteps, ih]

/-- Containers whose slices share no storage: each comes out with its own values
appended, and a slice apart from all of them is not touched. -/
theorem runSteps_stepAppend (hget : ∀ c s, get (set c s) = s) (cs : List C) :
    ∀ m : Mem α,
      (∀ c ∈ cs, (get c).WF m) →
      cs.Pairwise (fun a b => (get a).Disjoint (get b)) →
      (∀ (i : Nat) (c : C), cs[i]? = some c →
        ∃ s : Slice,
          (runSteps (stepAppend get set vals grow zero) cs m).1[i]? = some (set c s) ∧
          (runSteps (stepAppend get set vals grow zero) cs m).2.view s =
            m.view (get c) ++ vals c (m.view (get c)) ∧
          (vals c (m.view (get c)) = [] → s = get c)) ∧
      (∀ c ∈ (runSteps (stepAppend get set vals grow zero) cs m).1,
        (get c).WF (runSteps (stepAppend get set vals grow zero) cs m).2) ∧
      (runSteps (stepAppend get set vals grow zero) cs m).1.Pairwise
        (fun a b => (get a).Disjoint (get b)) ∧
      (∀ t : Slice, t.WF m → (∀ c ∈ cs, t.Disjoint (get c)) →
        (runSteps (stepAppend get set vals grow zero) cs m).2.view t = m.view t ∧
        t.WF (runSteps (stepAppend get set vals grow zero) cs m).2 ∧
        ∀ c ∈ (runSteps (stepAppend get set vals grow zero) cs m).1, t.Disjoint (get c)) := by
  induction cs with
  | nil =>
    intro m _ _
    refine ⟨?_, ?_, ?_, ?_⟩
    · intro i c h; simp at h
    · intro c h; simp [runSteps] at h
    · simp [runSteps]
    · intro t ht _
      refine ⟨rfl, ht, ?_⟩
      intro c h; simp [runSteps] at h
  | cons c cs ih =>
    intro m hwf hdis
    have hwfc : (get c).WF m := hwf c (List.mem_cons_self _ _)
    have hwfcs : ∀ d ∈ cs, (get d).WF m := fun d hd => hwf d (List.mem_cons_of_mem _ hd)
    rw [List.pairwise_cons] at hdis
    obtain ⟨hhead, htail⟩ := hdis
    -- the step on the head
    let xs := vals c (m.view (get c))
    let s1 := (appendAll grow zero m (get c) xs).1
    let m1 := (appendAll grow zero m (get c) xs).2
    have hstep : stepAppend get set vals grow zero m c = (set c s1, m1) := rfl
    have hview1 : m1.view s1 = m.view (get c) ++ xs := view_appendAll grow zero xs m (get c)
    have hwf1 : s1.WF m1 := WF_appendAll grow zero xs m (get c) hwfc
    have hframe : ∀ t : Slice, t.WF m → t.Disjoint (get c) →
        m1.view t = m.view t ∧ t.WF m1 ∧ t.Disjoint s1 :=
      fun t ht hd => frame_appendAll grow zero xs m (get c) t ht hd
    have hcs1 : ∀ d ∈ cs, (get d).WF m1 :=
      fun d hd => (hframe (get d) (hwfcs d hd) (hhead d hd).symm).2.1
    obtain ⟨ihA, ihB, ihC, ihD⟩ := ih m1 hcs1 htail
    have hs1 : ∀ d ∈ cs, s1.Disjoint (get d) :=
      fun d hd => (hframe (get d) (hwfcs d hd) (hhead d hd).symm).2.2.symm
    obtain ⟨hs1view, hs1wf, hs1dis⟩ := ihD s1 hwf1 hs1
    have hrun : runSteps (stepAppend get set vals grow zero) (c :: cs) m =
        (set c s1 :: (runSteps (stepAppend get set vals grow zero) cs m1).1,
          (runSteps (stepAppend get set vals grow zero) cs m1).2) := rfl
    rw [hrun]
    refine ⟨?_, ?_, ?_, ?_⟩
    · intro i d hd
      cases i with
      | zero =>
        simp only [List.getElem?_cons_zero, Option.some.injEq] at hd
        subst hd
        refine ⟨s1, by simp, ?_, ?_⟩
        · exact hs1view.trans hview1
        · intro hnil
          show (appendAll grow zero m (get c) (vals c (m.view (get c)))).1 = get c
          rw [hnil]
          rfl
      | succ i =>
        simp only [List.getElem?_cons_succ] at hd
        obtain ⟨s, h1, h2, h3⟩ := ihA i d hd
        have hmem : d ∈ cs := List.getElem?_mem hd
        have hv : m1.view (get d) = m.view (get d) :=
          (hframe (get d) (hwfcs d hmem) (hhead d hmem).symm).1
        refine ⟨s, by simpa using h1, ?_, ?_⟩
        · rw [h2, hv]
        · intro hnil
          exact h3 (by rw [hv]; exact hnil)
    · intro d hd
      rcases List.mem_cons.1 hd with h | h
      · subst h
        rw [hget]
        exact hs1wf
      · exact ihB d h
    · rw [List.pairwise_cons]
      refine ⟨?_, ihC⟩
      intro d hd
      rw [hget]
      exact hs1dis d hd
    · intro t ht hdis
      obtain ⟨f1, f2, f3⟩ := hframe t ht (hdis c (List.mem_cons_self _ _))
      obtain ⟨g1, g2, g3⟩ := ihD t f2 (fun d hd => hdis d (List.mem_cons_of_mem _ hd))
      refine ⟨g1.trans f1, g2, ?_⟩
      intro d hd
      rcases List.mem_cons.1 hd with h | h
      · subst h
        rw [hget]
        exact f3
      · exact g3 d h

end Steps


section Loops

variable {C : Type}

theorem updateAtIn_succ (f : Mem α → C → C × Mem α) (x : C) (cs : List C) (m : Mem α)
    (i : Nat) :
    updateAtIn (x :: cs, m) (i + 1) f =
      (x :: (updateAtIn (cs, m) i f).1, (updateAtIn (cs, m) i f).2) := by
  unfold updateAtIn
  simp only [List.getElem?_cons_succ]
  cases cs[i]? <;> rfl

theorem foldl_updateAtIn_succ (f : Mem α → C → C × Mem α) (x : C) (l : List Nat) :
    ∀ (cs : List C) (m : Mem α),
      (l.map Nat.succ).foldl (fun st i => updateAtIn st i f) (x :: cs, m) =
        (x :: (l.foldl (fun st i => updateAtIn st i f) (cs, m)).1,
          (l.foldl (fun st i => updateAtIn st i f) (cs, m)).2) := by
  induction l with
  | nil => intro cs m; rfl
  | cons i l ih =>
    intro cs m
    simp only [List.map_cons, List.foldl_cons]
    rw [show Nat.succ i = i + 1 from rfl, updateAtIn_succ, ih]

/-- The loop `for i := range containers { f(&containers[i]) }`, with `f` working
on the memory as well, runs `f` over the containers from first to last. -/
theorem foldl_updateAtIn_eq_runSteps (f : Mem α → C → C × Mem α) (cs : List C) :
    ∀ m : Mem α,
      (List.range cs.length).foldl (fun st i => updateAtIn st i f) (cs, m) =
        runSteps f cs m := by
  induction cs with
  | nil => intro m; rfl
  | cons c cs ih =>
    intro m
    rw [List.length_cons, List.range_succ_eq_map, List.foldl_cons]
    have h0 : updateAtIn (c :: cs, m) 0 f = ((f m c).1 :: cs, (f m c).2) := by
      simp [updateAtIn]
    rw [h0, foldl_updateAtIn_succ, ih]
    rfl

/-- A step that does nothing on every container leaves the list and the memory
as they were. -/
theorem runSteps_noop (f : Mem α → C → C × Mem α) (cs : List C) (m : Mem α)
    (h : ∀ c ∈ cs, f m c = (c, m)) : runSteps f cs m = (cs, m) := by
  induction cs with
  | nil => rfl
  | cons c cs ih =>
    have hc := h c (List.mem_cons_self _ _)
    have ht := ih (fun d hd => h d (List.mem_cons_of_mem _ hd))
    simp only [runSteps, hc, ht]

/-- A change `g` of the containers that the step does not look at can be made
before the run or after it. -/
theorem runSteps_map (f : Mem α → C → C × Mem α) (g : C → C)
    (h : ∀ (m : Mem α) (c : C), f m (g c) = (g (f m c).1, (f m c).2)) (cs : List C) :
    ∀ m : Mem α,
      runSteps f (cs.map g) m = ((runSteps f cs m).1.map g, (runSteps f cs m).2) := by
  induction cs with
  | nil => intro m; rfl
  | cons c cs ih =>
    intro m
    simp only [List.map_cons, runSteps, h, ih]

end Loops

section Presence

variable (Q : α → Prop)

theorem Overwritten.refl (l : List α) : Overwritten Q l l := by
  unfold Overwritten
  induction l with
  | nil => exact List.Forall₂.nil
  | cons a l ih => exact List.Forall₂.cons (Or.inl rfl) ih

theorem Overwritten.trans {l1 l2 l3 : List α} (h12 : Overwritten Q l1 l2)
    (h23 : Overwritten Q l2 l3) : Overwritten Q l1 l3 := by
  unfold Overwritten at *
  induction h12 generalizing l3 with
  | nil => cases h23; exact List.Forall₂.nil
  | cons hab _ ih =>
    cases h23 with
    | cons hbc htail =>
      refine List.Forall₂.cons ?_ (ih htail)
      rcases hbc with hbc | hbc
      · rcases hab with hab | hab
        · exact Or.inl (hbc.trans hab)
        · exact Or.inr (hbc ▸ hab)
      · exact Or.inr hbc

theorem Overwritten.exists {l l' : List α} (h : Overwritten Q l l')
    (hex : ∃ a ∈ l, Q a) : ∃ b ∈ l', Q b := by
  unfold Overwritten at h
  induction h with
  | nil => simp at hex
  | @cons a b l l' hab _ ih =>
    obtain ⟨x, hx, hq⟩ := hex
    rcases List.mem_cons.1 hx with hxa | hxl
    · subst hxa
      rcases hab with hab | hab
      · exact ⟨b, List.mem_cons_self _ _, hab ▸ hq⟩
      · exact ⟨b, List.mem_cons_self _ _, hab⟩
    · obtain ⟨y, hy, hqy⟩ := ih ⟨x, hxl, hq⟩
      exact ⟨y, List.mem_cons_of_mem _ hy, hqy⟩

theorem overwritten_of_cells (m m' : Mem α) (t : Slice)
    (h : ∀ k, k < t.len →
      m'.cells t.arr (t.off + k) = m.cells t.arr (t.off + k) ∨ Q (m'.cells t.arr (t.off + k))) :
    Overwritten Q (m.view t) (m'.view t) := by
  unfold Overwritten Mem.view
  rw [List.forall₂_map_left_iff, List.forall₂_map_right_iff]
  have key : ∀ l : List Nat, (∀ k ∈ l, k < t.len) →
      List.Forall₂ (fun a b => m'.cells t.arr (t.off + b) = m.cells t.arr (t.off + a) ∨
        Q (m'.cells t.arr (t.off + b))) l l := by
    intro l
    induction l with
    | nil => intro _; exact List.Forall₂.nil
    | cons a l ih =>
      intro hl
      exact List.Forall₂.cons (h a (hl a (List.mem_cons_self _ _)))
        (ih fun k hk => hl k (List.mem_cons_of_mem _ hk))
  exact key _ (fun k hk => List.mem_range.1 hk)

/-- What an `append` of a value that satisfies `Q` does to the view of any other
well-formed slice: some elements may be overwritten by that value. -/
theorem overwritten_append (grow : Nat → Nat) (zero : α) (m : Mem α) (s : Slice) (x : α)
    (hx : Q x) (t : Slice) (ht : t.WF m) :
    Overwritten Q (m.view t) ((append grow zero m s x).2.view t) ∧
      t.WF (append grow zero m s x).2 := by
  have hnext := next_append grow zero m s x
  refine ⟨?_, ?_⟩
  · apply overwritten_of_cells
    intro k hk
    have harr : t.arr < m.next := by
      rcases ht with ⟨h1, h2 | h2⟩
      · omega
      · exact h2
    rw [cells_append grow zero m s x _ _ harr]
    by_cases hc : s.len < s.cap ∧ t.arr = s.arr ∧ t.off + k = s.off + s.len
    · simp [hc, hx]
    · simp [hc]
  · rcases ht with ⟨h1, h2 | h2⟩
    · exact ⟨h1, Or.inl h2⟩
    · exact ⟨h1, Or.inr (by omega)⟩

theorem overwritten_appendAll (grow : Nat → Nat) (zero : α) (xs : List α)
    (hxs : ∀ x ∈ xs, Q x) :
    ∀ (m : Mem α) (s t : Slice), t.WF m →
      Overwritten Q (m.view t) ((appendAll grow zero m s xs).2.view t) ∧
        t.WF (appendAll grow zero m s xs).2 := by
  induction xs with
  | nil => intro m s t ht; exact ⟨Overwritten.refl Q _, ht⟩
  | cons x xs ih =>
    intro m s t ht
    rw [appendAll_cons]
    obtain ⟨h1, h2⟩ := overwritten_append Q grow zero m s x (hxs x (List.mem_cons_self _ _)) t ht
    obtain ⟨k1, k2⟩ := ih (fun y hy => hxs y (List.mem_cons_of_mem _ hy)) _
      (append grow zero m s x).1 t h2
    exact ⟨Overwritten.trans Q h1 k1, k2⟩

end Presence

section Settled

variable {C : Type} (get : C → Slice) (set : C → Slice → C) (vals : C → List α → List α)
  (grow : Nat → Nat) (zero : α) (Q : α → Prop)

/-- A run whose steps append only values that satisfy `Q`, and append nothing to
a view that holds such a value: whether or not slices share storage, after the
run no step has anything left to append. -/
theorem runSteps_settled (hget : ∀ c s, get (set c s) = s)
    (hvals : ∀ c s l, vals (set c s) l = vals c l)
    (hQ : ∀ c l, ∀ x ∈ vals c l, Q x)
    (hpresent : ∀ c l, (∃ x ∈ l, Q x) → vals c l = [])
    (hkeep : ∀ c l l', vals c l = [] → Overwritten Q l l' → vals c l' = [])
    (cs : List C) :
    ∀ m : Mem α, (∀ c ∈ cs, (get c).WF m) →
      (∀ c ∈ (runSteps (stepAppend get set vals grow zero) cs m).1,
        (get c).WF (runSteps (stepAppend get set vals grow zero) cs m).2 ∧
        vals c ((runSteps (stepAppend get set vals grow zero) cs m).2.view (get c)) = []) ∧
      (∀ t : Slice, t.WF m →
        Overwritten Q (m.view t)
          ((runSteps (stepAppend get set vals grow zero) cs m).2.view t) ∧
        t.WF (runSteps (stepAppend get set vals grow zero) cs m).2) := by
  induction cs with
  | nil =>
    intro m _
    refine ⟨?_, ?_⟩
    · intro c h; simp [runSteps] at h
    · intro t ht; exact ⟨Overwritten.refl Q _, ht⟩
  | cons c cs ih =>
    intro m hwf
    have hwfc : (get c).WF m := hwf c (List.mem_cons_self _ _)
    let xs := vals c (m.view (get c))
    let s1 := (appendAll grow zero m (get c) xs).1
    let m1 := (appendAll grow zero m (get c) xs).2
    have hxs : ∀ x ∈ xs, Q x := hQ c _
    have hview1 : m1.view s1 = m.view (get c) ++ xs := view_appendAll grow zero xs m (get c)
    have hwf1 : s1.WF m1 := WF_appendAll grow zero xs m (get c) hwfc
    have hover : ∀ t : Slice, t.WF m → Overwritten Q (m.view t) (m1.view t) ∧ t.WF m1 :=
      fun t ht => overwritten_appendAll Q grow zero xs hxs m (get c) t ht
    have hcs1 : ∀ d ∈ cs, (get d).WF m1 :=
      fun d hd => (hover (get d) (hwf d (List.mem_cons_of_mem _ hd))).2
    obtain ⟨ihA, ihB⟩ := ih m1 hcs1
    have hrun : runSteps (stepAppend get set vals grow zero) (c :: cs) m =
        (set c s1 :: (runSteps (stepAppend get set vals grow zero) cs m1).1,
          (runSteps (stepAppend get set vals grow zero) cs m1).2) := rfl
    rw [hrun]
    refine ⟨?_, ?_⟩
    · intro d hd
      rcases List.mem_cons.1 hd with h | h
      · subst h
        rw [hget, hvals]
        obtain ⟨o1, o2⟩ := ihB s1 hwf1
        refine ⟨o2, ?_⟩
        apply hkeep c (m1.view s1) _ _ o1
        rw [hview1]
        by_cases hnil : xs = []
        · rw [hnil, List.append_nil]
          exact hnil
        · obtain ⟨x, hx⟩ := List.exists_mem_of_ne_nil xs hnil
          exact hpresent c _ ⟨x, List.mem_append_right _ hx, hxs x hx⟩
      · exact ihA d h
    · intro t ht
      obtain ⟨o1, o2⟩ := hover t ht
      obtain ⟨p1, p2⟩ := ihB t o2
      exact ⟨Overwritten.trans Q o1 p1, p2⟩

end Settled

end Go

/-! ## `strconv.Itoa` -/

theorem toNat_digitChar (d : Nat) (h : d < 10) : (digitChar d).toNat = 48 + d := by
  interval_cases d <;> rfl

theorem decimalDigits_spec (fuel : Nat) :
    ∀ n : Nat, n < fuel →
      decimalDigits fuel n ≠ [] ∧
      (∀ d ∈ decimalDigits fuel n, d < 10) ∧
      Nat.ofDigits 10 (decimalDigits fuel n).reverse = n ∧
      ((decimalDigits fuel n).head? = some 0 → n = 0) := by
  induction fuel with
  | zero => intro n h; omega
  | succ fuel ih =>
    intro n hn
    by_cases hsmall : n < 10
    · have hd : decimalDigits (fuel + 1) n = [n] := by simp [decimalDigits, hsmall]
      rw [hd]
      refine ⟨by simp, ?_, by simp [Nat.ofDigits], ?_⟩
      · intro d hd'
        simp at hd'
        omega
      · intro h
        simpa using h
    · have hd : decimalDigits (fuel + 1) n = decimalDigits fuel (n / 10) ++ [n % 10] := by
        simp [decimalDigits, hsmall]
      have hlt : n / 10 < fuel := by omega
      obtain ⟨h1, h2, h3, h4⟩ := ih (n / 10) hlt
      rw [hd]
      refine ⟨by simp, ?_, ?_, ?_⟩
      · intro d hd'
        rcases List.mem_append.1 hd' with h | h
        · exact h2 d h
        · simp at h
          omega
      · rw [List.reverse_append, List.reverse_singleton, List.singleton_append,
          Nat.ofDigits_cons, h3]
        omega
      · intro h
        have : (decimalDigits fuel (n / 10)).head? = some 0 := by
          cases hds : decimalDigits fuel (n / 10) with
          | nil => exact absurd hds h1
          | cons a l => rw [hds] at h; simpa using h
        have := h4 this
        omega

/-- `Itoa` writes the base-10 text: a minus sign for a negative number, then the
decimal digit characters of the absolute value, most significant first, without
a leading zero. -/
theorem Itoa_base10 (i : Int) :
    ∃ chars : List Char,
      Itoa i = String.mk ((if i < 0 then ['-'] else []) ++ chars) ∧
      chars ≠ [] ∧
      (∀ ch ∈ chars, 48 ≤ ch.toNat ∧ ch.toNat ≤ 57) ∧
      Nat.ofDigits 10 ((chars.map fun ch => ch.toNat - 48).reverse) = i.natAbs ∧
      (chars.head? = some '0' → chars = ['0']) := by
  obtain ⟨h1, h2, h3, h4⟩ := decimalDigits_spec (i.natAbs + 1) i.natAbs (Nat.lt_succ_self _)
  have hback : (((decimalDigits (i.natAbs + 1) i.natAbs).map digitChar).map
      fun ch => ch.toNat - 48) = decimalDigits (i.natAbs + 1) i.natAbs := by
    rw [List.map_map]
    conv_rhs => rw [← List.map_id (decimalDigits (i.natAbs + 1) i.natAbs)]
    apply List.map_congr_left
    intro d hd
    simp only [Function.comp_apply, id_eq]
    rw [toNat_digitChar d (h2 d hd)]
    omega
  refine ⟨(decimalDigits (i.natAbs + 1) i.natAbs).map digitChar, rfl, ?_, ?_, ?_, ?_⟩
  · simpa using h1
  · intro ch hch
    obtain ⟨d, hd, rfl⟩ := List.mem_map.1 hch
    rw [toNat_digitChar d (h2 d hd)]
    have := h2 d hd
    omega
  · rw [hback, h3]
  · intro h
    have hzero : (decimalDigits (i.natAbs + 1) i.natAbs).head? = some 0 := by
      cases hds : decimalDigits (i.natAbs + 1) i.natAbs with
      | nil => exact absurd hds h1
      | cons a l =>
        rw [hds] at h
        simp only [List.map_cons, List.head?_cons, Option.some.injEq] at h
        have ha : a < 10 := h2 a (by rw [hds]; exact List.mem_cons_self _ _)
        have h48 : (digitChar a).toNat = 48 + a := toNat_digitChar a ha
        rw [h] at h48
        have : a = 0 := by
          have h0 : ('0' : Char).toNat = 48 := rfl
          omega
        rw [this]
        rfl
    have h0 := h4 hzero
    rw [h0]
    decide

/-! ## The loops of `utils.go`

The index loop of `UpdateContainersEntrypointsIfNeeded` touches the element at the
loop index and no memory, so it computes a `List.map`; the loops that `append` run
a step over the containers from first to last, handing the memory on. -/

namespace Utils

open Corev1

theorem getElem?_updateAt (cs : List Container) (i j : Nat) (f : Container → Container) :
    (updateAt cs i f)[j]? = if j = i then cs[j]?.map f else cs[j]? := by
  unfold updateAt
  cases h : cs[i]? with
  | none =>
    by_cases hj : j = i
    · subst hj; simp [h]
    · simp [hj]
  | some c =>
    have hlt : i < cs.length := by
      by_contra hge
      rw [List.getElem?_eq_none (Nat.le_of_not_lt hge)] at h
      cases h
    by_cases hj : j = i
    · subst hj; simp [List.getElem?_set, hlt, h]
    · have hne : i ≠ j := fun e => hj e.symm
      simp [List.getElem?_set, hj, hne]

theorem getElem?_foldl_updateAt (f : Container → Container) (cs : List Container)
    (n j : Nat) :
    ((List.range n).foldl (fun mem i => updateAt mem i f) cs)[j]? =
      if j < n then cs[j]?.map f else cs[j]? := by
  induction n with
  | zero => simp
  | succ n ih =>
    rw [List.range_succ, List.foldl_append]
    simp only [List.foldl_cons, List.foldl_nil]
    rw [getElem?_updateAt, ih]
    by_cases hj : j = n
    · subst hj; simp
    · by_cases hlt : j < n
      · have : j < n + 1 := by omega
        simp [hj, hlt, this]
      · have : ¬ j < n + 1 := by omega
        simp [hj, hlt, this]

/-- The loop `for i := range containers { f(&containers[i]) }` maps `f` over the
slice. -/
theorem foldl_updateAt_eq_map (f : Container → Container) (cs : List Container) :
    (List.range cs.length).foldl (fun mem i => updateAt mem i f) cs = cs.map f := by
  apply List.ext_getElem?
  intro j
  rw [getElem?_foldl_updateAt, List.getElem?_map]
  by_cases hlt : j < cs.length
  · simp [hlt]
  · simp [hlt, List.getElem?_eq_none (Nat.le_of_not_lt hlt)]

theorem isEnvPresent_eq_any (EnvVars : List EnvVar) (envVarName : String) :
    isEnvPresent EnvVars envVarName = EnvVars.any (fun e => e.Name == envVarName) := by
  unfold isEnvPresent
  have key : ∀ (l : List EnvVar) (b : Bool),
      l.foldl (fun isPresent envVar => if envVar.Name == envVarName then true else isPresent) b
        = (b || l.any (fun e => e.Name == envVarName)) := by
    intro l
    induction l with
    | nil => intro b; simp
    | cons e l ih =>
      intro b
      simp only [List.foldl_cons, List.any_cons, ih]
      cases hb : (e.Name == envVarName) <;> cases b <;> simp
  simpa using key EnvVars false

theorem isEnvPresent_eq_false_iff (EnvVars : List EnvVar) (envVarName : String) :
    isEnvPresent EnvVars envVarName = false ↔ ∀ e ∈ EnvVars, e.Name ≠ envVarName := by
  rw [isEnvPresent_eq_any]
  simp

theorem isEnvPresent_eq_true_iff (EnvVars : List EnvVar) (envVarName : String) :
    isEnvPresent EnvVars envVarName = true ↔ ∃ e ∈ EnvVars, e.Name = envVarName := by
  rw [isEnvPresent_eq_any]
  simp

/-- On success `UpdateContainersEntrypointsIfNeeded` returns the caller's slice,
each element rewritten by the loop body. -/
theorem UpdateContainersEntrypointsIfNeeded_ok {D Err : Type} (lib : Libdevfile D Err)
    (devfileObj : DevfileObj D) (containers : Option (List Container))
    (devfileRunCmd devfileDebugCmd : String) (runCommand debugCommand : Command)
    (hrun : lib.GetRunCommand devfileObj.Data devfileRunCmd = .ok runCommand)
    (hdebug : lib.GetDebugCommand devfileObj.Data devfileDebugCmd = .ok debugCommand) :
    UpdateContainersEntrypointsIfNeeded lib devfileObj containers devfileRunCmd devfileDebugCmd =
      { containers := containers.map (List.map (entrypointStep lib runCommand debugCommand)),
        err := none,
        mem := containers.map (List.map (entrypointStep lib runCommand debugCommand)) } := by
  unfold UpdateContainersEntrypointsIfNeeded
  rw [hrun]
  simp only [hdebug]
  cases containers with
  | none => rfl
  | some cs => simp [foldl_updateAt_eq_map]

theorem set_eq_self_of_getElem? (cs : List Container) (i : Nat) (c : Container)
    (h : cs[i]? = some c) : cs.set i c = cs := by
  apply List.ext_getElem?
  intro j
  rw [List.getElem?_set]
  by_cases hij : i = j
  · subst hij
    obtain ⟨hlt, _⟩ := List.getElem?_eq_some.1 h
    simp [hlt, h]
  · simp [hij]

/-- The loop body of `UpdateContainerEnvVars` appends to `Env` the entries of
`debugPortEntries`. -/
theorem envVarStep_eq_stepAppend {D Err : Type} (lib : Libdevfile D Err)
    (common : AdaptersCommon) (grow : Nat → Nat) (debugCommand : Command)
    (devfileDebugPort : Int) :
    envVarStep lib common grow debugCommand devfileDebugPort =
      Go.stepAppend (fun c : Container => c.Env) (fun c s => { c with Env := s })
        (debugPortEntries lib common debugCommand devfileDebugPort) grow EnvVar.zero := by
  funext m c
  unfold envVarStep Go.stepAppend debugPortEntries debugPortEntry
  by_cases ht : lib.ShouldExecCommandRunOnContainer debugCommand.Exec c.Name = true
  · by_cases hp : isEnvPresent (m.view c.Env) common.EnvDebugPort = true
    · simp [ht, hp, Go.appendAll_nil]
    · simp [ht, hp, Go.appendAll]
  · simp [ht, Go.appendAll_nil]

/-- On success `UpdateContainerEnvVars` returns the caller's slice after the loop
body has run over its containers from first to last. -/
theorem UpdateContainerEnvVars_ok {D Err : Type} (lib : Libdevfile D Err)
    (common : AdaptersCommon) (grow : Nat → Nat) (devfileObj : DevfileObj D)
    (envs : Go.Mem EnvVar) (cs : List Container)
    (devfileDebugCmd : String) (devfileDebugPort : Int) (debugCommand : Command)
    (hdebug : lib.GetDebugCommand devfileObj.Data devfileDebugCmd = .ok debugCommand) :
    UpdateContainerEnvVars lib common grow devfileObj envs (some cs) devfileDebugCmd
        devfileDebugPort =
      { containers :=
          some (Go.runSteps (envVarStep lib common grow debugCommand devfileDebugPort) cs envs).1,
        err := none,
        mem :=
          some (Go.runSteps (envVarStep lib common grow debugCommand devfileDebugPort) cs envs).1,
        envs := (Go.runSteps (envVarStep lib common grow debugCommand devfileDebugPort) cs envs).2 } := by
  unfold UpdateContainerEnvVars
  rw [hdebug]
  simp only [Go.foldl_updateAtIn_eq_runSteps]

/-- On success `UpdateContainerEnvVars` returns a nil slice as it got it. -/
theorem UpdateContainerEnvVars_ok_nil {D Err : Type} (lib : Libdevfile D Err)
    (common : AdaptersCommon) (grow : Nat → Nat) (devfileObj : DevfileObj D)
    (envs : Go.Mem EnvVar) (devfileDebugCmd : String) (devfileDebugPort : Int)
    (debugCommand : Command)
    (hdebug : lib.GetDebugCommand devfileObj.Data devfileDebugCmd = .ok debugCommand) :
    UpdateContainerEnvVars lib common grow devfileObj envs none devfileDebugCmd
        devfileDebugPort =
      { containers := none, err := none, mem := none, envs := envs } := by
  unfold UpdateContainerEnvVars
  rw [hdebug]

/-- A call of `UpdateContainerEnvVars` that returns no error had a debug command
to work with. -/
theorem UpdateContainerEnvVars_resolved {D Err : Type} (lib : Libdevfile D Err)
    (common : AdaptersCommon) (grow : Nat → Nat) (devfileObj : DevfileObj D)
    (envs : Go.Mem EnvVar) (containers : Option (List Container))
    (devfileDebugCmd : String) (devfileDebugPort : Int)
    (h : (UpdateContainerEnvVars lib common grow devfileObj envs containers devfileDebugCmd
      devfileDebugPort).err = none) :
    ∃ debugCommand, lib.GetDebugCommand devfileObj.Data devfileDebugCmd = .ok debugCommand := by
  unfold UpdateContainerEnvVars at h
  cases hd : lib.GetDebugCommand devfileObj.Data devfileDebugCmd with
  | error e => simp [hd] at h
  | ok debugCommand => exact ⟨debugCommand, rfl⟩

/-- `AddOdoMandatoryVolume` on a non-nil pointer runs the step that appends the
shared-data mount over the containers from first to last. -/
theorem AddOdoMandatoryVolume_eq_runSteps (storage : Storage) (grow : Nat → Nat)
    (mounts : Go.Mem VolumeMount) (cs : List Container) :
    AddOdoMandatoryVolume storage grow mounts (some cs) =
      (some (Go.runSteps
          (Go.stepAppend (fun c : Container => c.VolumeMounts)
            (fun c s => { c with VolumeMounts := s })
            (fun _ _ => [sharedDataMount storage]) grow VolumeMount.zero) cs mounts).1,
        (Go.runSteps
          (Go.stepAppend (fun c : Container => c.VolumeMounts)
            (fun c s => { c with VolumeMounts := s })
            (fun _ _ => [sharedDataMount storage]) grow VolumeMount.zero) cs mounts).2) := by
  unfold AddOdoMandatoryVolume
  have hbody : (fun (st : List Container × Go.Mem VolumeMount) (i : Nat) =>
        match st.1[i]? with
        | none => st
        | some container =>
          let r := Go.append grow VolumeMount.zero st.2 container.VolumeMounts
            { Name := storage.SharedDataVolumeName, ReadOnly := false,
              MountPath := storage.SharedDataMountPath, SubPath := "" }
          let container : Container := { container with VolumeMounts := r.1 }
          (st.1.set i container, r.2)) =
      fun st i => Go.updateAtIn st i
        (Go.stepAppend (fun c : Container => c.VolumeMounts)
          (fun c s => { c with VolumeMounts := s })
          (fun _ _ => [sharedDataMount storage]) grow VolumeMount.zero) := by
    funext st i
    unfold Go.updateAtIn Go.stepAppend sharedDataMount
    cases st.1[i]? <;> rfl
  simp only [hbody, Go.foldl_updateAtIn_eq_runSteps]

/-- The inner loop of `AddOdoProjectVolume`: the local copy collects the mounts,
and the slice element is written whenever one is added. -/
theorem foldl_addProjectMount (storage : Storage) (common : AdaptersCommon)
    (grow : Nat → Nat) (i : Nat) (env : List EnvVar) :
    ∀ (c : Container) (l : List Container) (m : Go.Mem VolumeMount),
      env.foldl (addProjectMount storage common grow i) (c, l, m) =
        ({ c with VolumeMounts :=
            (Go.appendAll grow VolumeMount.zero m c.VolumeMounts
              (projectMounts storage common env)).1 },
          (if projectMounts storage common env = [] then l
            else l.set i { c with VolumeMounts :=
              (Go.appendAll grow VolumeMount.zero m c.VolumeMounts
                (projectMounts storage common env)).1 }),
          (Go.appendAll grow VolumeMount.zero m c.VolumeMounts
            (projectMounts storage common env)).2) := by
  induction env with
  | nil =>
    intro c l m
    simp [projectMounts, Go.appendAll_nil]
  | cons e env ih =>
    intro c l m
    rw [List.foldl_cons]
    by_cases he : e.Name = common.EnvProjectsRoot
    · have hstep : addProjectMount storage common grow i (c, l, m) e =
          ({ c with VolumeMounts := (Go.append grow VolumeMount.zero m c.VolumeMounts
                { Name := storage.OdoSourceVolume, ReadOnly := false,
                  MountPath := e.Value, SubPath := "" }).1 },
            l.set i { c with VolumeMounts := (Go.append grow VolumeMount.zero m c.VolumeMounts
                { Name := storage.OdoSourceVolume, ReadOnly := false,
                  MountPath := e.Value, SubPath := "" }).1 },
            (Go.append grow VolumeMount.zero m c.VolumeMounts
                { Name := storage.OdoSourceVolume, ReadOnly := false,
                  MountPath := e.Value, SubPath := "" }).2) := by
        simp [addProjectMount, he]
      have hcons : projectMounts storage common (e :: env) =
          { Name := storage.OdoSourceVolume, ReadOnly := false,
            MountPath := e.Value, SubPath := "" } :: projectMounts storage common env := by
        simp [projectMounts, he]
      rw [hstep, ih, hcons, Go.appendAll_cons]
      by_cases hnil : projectMounts storage common env = []
      · simp [hnil, Go.appendAll_nil]
      · simp [hnil, List.set_set]
    · have hstep : addProjectMount storage common grow i (c, l, m) e = (c, l, m) := by
        simp [addProjectMount, he]
      have hcons : projectMounts storage common (e :: env) = projectMounts storage common env := by
        simp [projectMounts, he]
      rw [hstep, ih, hcons]

/-- `AddOdoProjectVolume` on a non-nil pointer runs the step that appends the
project mounts of a container over the containers from first to last. -/
theorem AddOdoProjectVolume_eq_runSteps (storage : Storage) (common : AdaptersCommon)
    (grow : Nat → Nat) (envs : Go.Mem EnvVar) (mounts : Go.Mem VolumeMount)
    (cs : List Container) :
    AddOdoProjectVolume storage common grow envs mounts (some cs) =
      (some (Go.runSteps
          (Go.stepAppend (fun c : Container => c.VolumeMounts)
            (fun c s => { c with VolumeMounts := s })
            (fun c _ => projectMounts storage common (envs.view c.Env))
            grow VolumeMount.zero) cs mounts).1,
        (Go.runSteps
          (Go.stepAppend (fun c : Container => c.VolumeMounts)
            (fun c s => { c with VolumeMounts := s })
            (fun c _ => projectMounts storage common (envs.view c.Env))
            grow VolumeMount.zero) cs mounts).2) := by
  unfold AddOdoProjectVolume
  have hbody : (fun (st : List Container × Go.Mem VolumeMount) (i : Nat) =>
        match st.1[i]? with
        | none => st
        | some container =>
          let r := (envs.view container.Env).foldl (addProjectMount storage common grow i)
            (container, st.1, st.2)
          (r.2.1, r.2.2)) =
      fun st i => Go.updateAtIn st i
        (Go.stepAppend (fun c : Container => c.VolumeMounts)
          (fun c s => { c with VolumeMounts := s })
          (fun c _ => projectMounts storage common (envs.view c.Env))
          grow VolumeMount.zero) := by
    funext st i
    unfold Go.updateAtIn Go.stepAppend
    cases h : st.1[i]? with
    | none => rfl
    | some c =>
      simp only [foldl_addProjectMount]
      by_cases hnil : projectMounts storage common (envs.view c.Env) = []
      · simp only [hnil, if_true, Go.appendAll_nil]
        rw [set_eq_self_of_getElem? st.1 i c h]
      · simp only [hnil, if_false]
  simp only [hbody, Go.foldl_updateAtIn_eq_runSteps]

end Utils

/-! ## Theorems: `componentCanSyncFile` -/

namespace Watch

/-- C1: for every `State` value, also one that is none of the three constants,
`componentCanSyncFile` is true exactly when the state equals `StateReady`; it is
false at `StateWaitDeployment` and at `StateSyncOutdated`. -/
theorem componentCanSyncFile_iff_ready :
    (∀ s : State, componentCanSyncFile s = true ↔ s = StateReady) ∧
      componentCanSyncFile StateWaitDeployment = false ∧
      componentCanSyncFile StateSyncOutdated = false := by
  refine ⟨fun s => ?_, by decide, by decide⟩
  simp [componentCanSyncFile]

end Watch

/-! ## Theorems: `UpdateContainerEnvVars` -/

namespace Utils

open Corev1

theorem debugPortEntries_targeted_absent {D Err : Type} (lib : Libdevfile D Err)
    (common : AdaptersCommon) (debugCommand : Command) (devfileDebugPort : Int)
    (c : Container) (env : List EnvVar)
    (htarget : lib.ShouldExecCommandRunOnContainer debugCommand.Exec c.Name = true)
    (habsent : ∀ e ∈ env, e.Name ≠ common.EnvDebugPort) :
    debugPortEntries lib common debugCommand devfileDebugPort c env =
      [debugPortEntry common devfileDebugPort] := by
  have hp : isEnvPresent env common.EnvDebugPort = false :=
    (isEnvPresent_eq_false_iff _ _).2 habsent
  simp [debugPortEntries, htarget, hp]

theorem debugPortEntries_present {D Err : Type} (lib : Libdevfile D Err)
    (common : AdaptersCommon) (debugCommand : Command) (devfileDebugPort : Int)
    (c : Container) (env : List EnvVar)
    (hpresent : ∃ e ∈ env, e.Name = common.EnvDebugPort) :
    debugPortEntries lib common debugCommand devfileDebugPort c env = [] := by
  have hp : isEnvPresent env common.EnvDebugPort = true :=
    (isEnvPresent_eq_true_iff _ _).2 hpresent
  simp [debugPortEntries, hp]

theorem debugPortEntries_untargeted {D Err : Type} (lib : Libdevfile D Err)
    (common : AdaptersCommon) (debugCommand : Command) (devfileDebugPort : Int)
    (c : Container) (env : List EnvVar)
    (hnot : lib.ShouldExecCommandRunOnContainer debugCommand.Exec c.Name = false) :
    debugPortEntries lib common debugCommand devfileDebugPort c env = [] := by
  simp [debugPortEntries, hnot]

/-- The entries to add are none, or the one debug-port entry. -/
theorem debugPortEntries_cases {D Err : Type} (lib : Libdevfile D Err)
    (common : AdaptersCommon) (debugCommand : Command) (devfileDebugPort : Int)
    (c : Container) (env : List EnvVar) :
    debugPortEntries lib common debugCommand devfileDebugPort c env = [] ∨
      debugPortEntries lib common debugCommand devfileDebugPort c env =
        [debugPortEntry common devfileDebugPort] := by
  unfold debugPortEntries
  split
  · split
    · exact Or.inr rfl
    · exact Or.inl rfl
  · exact Or.inl rfl

/-- `UpdateContainerEnvVars` on containers whose `Env` slices are well formed and
share no backing storage: every container comes out with the entries of
`debugPortEntries` at the end of its `Env` and nothing else changed, and the
slices that come out are again well formed and share no storage. -/
theorem UpdateContainerEnvVars_unshared {D Err : Type} (lib : Libdevfile D Err)
    (common : AdaptersCommon) (grow : Nat → Nat) (devfileObj : DevfileObj D)
    (envs : Go.Mem EnvVar) (cs : List Container)
    (devfileDebugCmd : String) (devfileDebugPort : Int) (debugCommand : Command)
    (hdebug : lib.GetDebugCommand devfileObj.Data devfileDebugCmd = .ok debugCommand)
    (hwf : ∀ c ∈ cs, c.Env.WF envs)
    (hshare : cs.Pairwise (fun a b => a.Env.Disjoint b.Env)) :
    ∃ (out : List Container) (envs' : Go.Mem EnvVar),
      UpdateContainerEnvVars lib common grow devfileObj envs (some cs) devfileDebugCmd
          devfileDebugPort =
        { containers := some out, err := none, mem := some out, envs := envs' } ∧
      out.length = cs.length ∧
      (∀ (i : Nat) (c : Container), cs[i]? = some c →
        ∃ s : Go.Slice, out[i]? = some { c with Env := s } ∧
          envs'.view s = envs.view c.Env ++
            debugPortEntries lib common debugCommand devfileDebugPort c (envs.view c.Env) ∧
          (debugPortEntries lib common debugCommand devfileDebugPort c (envs.view c.Env) = [] →
            s = c.Env)) ∧
      (∀ c ∈ out, c.Env.WF envs') ∧
      out.Pairwise (fun a b => a.Env.Disjoint b.Env) := by
  obtain ⟨hA, hB, hC, _⟩ :=
    Go.runSteps_stepAppend (fun c : Container => c.Env) (fun c s => { c with Env := s })
      (debugPortEntries lib common debugCommand devfileDebugPort) grow EnvVar.zero
      (fun _ _ => rfl) cs envs hwf hshare
  refine ⟨_, _, ?_, ?_, hA, hB, hC⟩
  · rw [UpdateContainerEnvVars_ok lib common grow devfileObj envs cs _ _ debugCommand hdebug,
      envVarStep_eq_stepAppend]
  · exact Go.length_runSteps _ cs envs

/-- C2, amended: when the debug command resolves and the `Env` slices of the
containers are well formed and share no backing storage, a container that the
debug command targets and whose `Env` has no entry named `EnvDebugPort` comes out
with exactly one more entry, at the end of its `Env`: the entry named
`EnvDebugPort` whose value is the base-10 text of the debug port (a minus sign for
a negative port, then the characters `'0'` to `'9'` that are the decimal digits of
its absolute value, most significant first, without a leading zero). Nothing else of the container changes, and the returned
slice is the caller's slice, with as many containers as before. -/
theorem UpdateContainerEnvVars_appends_debug_port {D Err : Type} (lib : Libdevfile D Err)
    (common : AdaptersCommon) (grow : Nat → Nat) (devfileObj : DevfileObj D)
    (envs : Go.Mem EnvVar) (cs : List Container)
    (devfileDebugCmd : String) (devfileDebugPort : Int) (debugCommand : Command)
    (hdebug : lib.GetDebugCommand devfileObj.Data devfileDebugCmd = .ok debugCommand)
    (hwf : ∀ c ∈ cs, c.Env.WF envs)
    (hshare : cs.Pairwise (fun a b => a.Env.Disjoint b.Env))
    (i : Nat) (c : Container) (hc : cs[i]? = some c)
    (htarget : lib.ShouldExecCommandRunOnContainer debugCommand.Exec c.Name = true)
    (habsent : ∀ e ∈ envs.view c.Env, e.Name ≠ common.EnvDebugPort) :
    ∃ (out : List Container) (c' : Container) (chars : List Char),
      (UpdateContainerEnvVars lib common grow devfileObj envs (some cs) devfileDebugCmd
          devfileDebugPort).containers = some out ∧
      (UpdateContainerEnvVars lib common grow devfileObj envs (some cs) devfileDebugCmd
          devfileDebugPort).mem = some out ∧
      out.length = cs.length ∧
      out[i]? = some c' ∧
      c' = { c with Env := c'.Env } ∧
      (UpdateContainerEnvVars lib common grow devfileObj envs (some cs) devfileDebugCmd
          devfileDebugPort).envs.view c'.Env =
        envs.view c.Env ++
          [{ Name := common.EnvDebugPort,
             Value := String.mk ((if devfileDebugPort < 0 then ['-'] else []) ++ chars) }] ∧
      chars ≠ [] ∧ (∀ ch ∈ chars, 48 ≤ ch.toNat ∧ ch.toNat ≤ 57) ∧
      Nat.ofDigits 10 ((chars.map fun ch => ch.toNat - 48).reverse) =
        devfileDebugPort.natAbs ∧
      (chars.head? = some '0' → chars = ['0']) := by
  obtain ⟨out, envs', hout, hlen, hA, _, _⟩ :=
    UpdateContainerEnvVars_unshared lib common grow devfileObj envs cs devfileDebugCmd
      devfileDebugPort debugCommand hdebug hwf hshare
  obtain ⟨s, h1, h2, _⟩ := hA i c hc
  obtain ⟨chars, hd1, hd2, hd3, hd4, hd5⟩ := Itoa_base10 devfileDebugPort
  rw [debugPortEntries_targeted_absent lib common debugCommand devfileDebugPort c _ htarget
    habsent] at h2
  refine ⟨out, { c with Env := s }, chars, ?_, ?_, hlen, h1, rfl, ?_, hd2, hd3, hd4, hd5⟩
  · rw [hout]
  · rw [hout]
  · rw [hout, ← hd1]
    exact h2

/-- C3, amended: when the debug command resolves and the `Env` slices of the
containers are well formed and share no backing storage, a container that
already has an `Env` entry named `EnvDebugPort` (whatever its value), and a
container the debug command does not target, come out equal to what they were,
in every field, and their `Env` reads as it did. -/
theorem UpdateContainerEnvVars_frame {D Err : Type} (lib : Libdevfile D Err)
    (common : AdaptersCommon) (grow : Nat → Nat) (devfileObj : DevfileObj D)
    (envs : Go.Mem EnvVar) (cs : List Container)
    (devfileDebugCmd : String) (devfileDebugPort : Int) (debugCommand : Command)
    (hdebug : lib.GetDebugCommand devfileObj.Data devfileDebugCmd = .ok debugCommand)
    (hwf : ∀ c ∈ cs, c.Env.WF envs)
    (hshare : cs.Pairwise (fun a b => a.Env.Disjoint b.Env))
    (i : Nat) (c : Container) (hc : cs[i]? = some c)
    (hkeep : (∃ e ∈ envs.view c.Env, e.Name = common.EnvDebugPort) ∨
      lib.ShouldExecCommandRunOnContainer debugCommand.Exec c.Name = false) :
    ∃ out : List Container,
      (UpdateContainerEnvVars lib common grow devfileObj envs (some cs) devfileDebugCmd
          devfileDebugPort).containers = some out ∧
      (UpdateContainerEnvVars lib common grow devfileObj envs (some cs) devfileDebugCmd
          devfileDebugPort).mem = some out ∧
      out.length = cs.length ∧
      out[i]? = some c ∧
      (UpdateContainerEnvVars lib common grow devfileObj envs (some cs) devfileDebugCmd
          devfileDebugPort).envs.view c.Env = envs.view c.Env := by
  obtain ⟨out, envs', hout, hlen, hA, _, _⟩ :=
    UpdateContainerEnvVars_unshared lib common grow devfileObj envs cs devfileDebugCmd
      devfileDebugPort debugCommand hdebug hwf hshare
  obtain ⟨s, h1, h2, h3⟩ := hA i c hc
  have hnil : debugPortEntries lib common debugCommand devfileDebugPort c (envs.view c.Env)
      = [] := by
    rcases hkeep with hpresent | hnot
    · exact debugPortEntries_present lib common debugCommand devfileDebugPort c _ hpresent
    · exact debugPortEntries_untargeted lib common debugCommand devfileDebugPort c _ hnot
  have hs : s = c.Env := h3 hnil
  subst hs
  rw [hnil, List.append_nil] at h2
  refine ⟨out, ?_, ?_, hlen, h1, ?_⟩
  · rw [hout]
  · rw [hout]
  · rw [hout]
    exact h2

/-- C11: `UpdateContainerEnvVars` returns an error exactly when resolving the
debug command fails. It then returns a nil list and that same error and leaves
the caller's slice, and the memory of the `Env` slices, as they were; when the
debug command resolves it returns a nil error and the caller's slice, nil when
the input was nil and otherwise of the length of the input. -/
theorem UpdateContainerEnvVars_error {D Err : Type} (lib : Libdevfile D Err)
    (common : AdaptersCommon) (grow : Nat → Nat) (devfileObj : DevfileObj D)
    (envs : Go.Mem EnvVar) (containers : Option (List Container))
    (devfileDebugCmd : String) (devfileDebugPort : Int) :
    ((UpdateContainerEnvVars lib common grow devfileObj envs containers devfileDebugCmd
          devfileDebugPort).err ≠ none ↔
        ∃ e, lib.GetDebugCommand devfileObj.Data devfileDebugCmd = .error e) ∧
      (∀ e, lib.GetDebugCommand devfileObj.Data devfileDebugCmd = .error e →
        UpdateContainerEnvVars lib common grow devfileObj envs containers devfileDebugCmd
            devfileDebugPort =
          { containers := none, err := some e, mem := containers, envs := envs }) ∧
      (∀ debugCommand, lib.GetDebugCommand devfileObj.Data devfileDebugCmd = .ok debugCommand →
        (UpdateContainerEnvVars lib common grow devfileObj envs containers devfileDebugCmd
            devfileDebugPort).err = none ∧
        (UpdateContainerEnvVars lib common grow devfileObj envs containers devfileDebugCmd
            devfileDebugPort).containers.map List.length = containers.map List.length ∧
        (UpdateContainerEnvVars lib common grow devfileObj envs containers devfileDebugCmd
            devfileDebugPort).mem =
          (UpdateContainerEnvVars lib common grow devfileObj envs containers devfileDebugCmd
            devfileDebugPort).containers) := by
  refine ⟨?_, ?_, ?_⟩
  · unfold UpdateContainerEnvVars
    cases hd : lib.GetDebugCommand devfileObj.Data devfileDebugCmd with
    | error e => simp
    | ok debugCommand =>
      cases containers <;> simp
  · intro e hd
    unfold UpdateContainerEnvVars
    simp only [hd]
  · intro debugCommand hd
    cases containers with
    | none =>
      rw [UpdateContainerEnvVars_ok_nil lib common grow devfileObj envs _ _ debugCommand hd]
      exact ⟨rfl, rfl, rfl⟩
    | some cs =>
      rw [UpdateContainerEnvVars_ok lib common grow devfileObj envs cs _ _ debugCommand hd]
      refine ⟨rfl, ?_, rfl⟩
      simp [Go.length_runSteps]

end Utils

namespace Example

open Corev1 Utils

theorem UpdateContainerEnvVars_appends_debug_port_witness :
    ∃ (out : List Container) (c' : Container),
      (UpdateContainerEnvVars lib common grow devfileObj envs (some containers) "debug"
          5858).containers = some out ∧
      out[0]? = some c' ∧ c' = { runtime with Env := c'.Env } ∧
      (UpdateContainerEnvVars lib common grow devfileObj envs (some containers) "debug"
          5858).envs.view c'.Env =
        [{ Name := "PROJECTS_ROOT", Value := "/projects" },
         { Name := "DEBUG_PORT", Value := "5858" }] := by
  obtain ⟨out, c', chars, h1, _, _, h4, h5, _⟩ :=
    UpdateContainerEnvVars_appends_debug_port lib common grow devfileObj envs containers
      "debug" 5858 debugCommand (by rfl) (by decide) (by decide) 0 runtime (by rfl)
      (by decide) (by decide)
  refine ⟨out, c', h1, h4, h5, ?_⟩
  have hrun : (UpdateContainerEnvVars lib common grow devfileObj envs (some containers)
      "debug" 5858).containers.map
        (List.map fun c => (UpdateContainerEnvVars lib common grow devfileObj envs
          (some containers) "debug" 5858).envs.view c.Env) =
      some [[{ Name := "PROJECTS_ROOT", Value := "/projects" },
             { Name := "DEBUG_PORT", Value := "5858" }],
            [{ Name := "DEBUG_PORT", Value := "9000" }]] := by
    decide
  rw [h1] at hrun
  simp only [Option.map_some', Option.some.injEq] at hrun
  have h0 := congrArg (fun l => l[0]?) hrun
  simp only [List.getElem?_map, h4, Option.map_some', List.getElem?_cons_zero,
    Option.some.injEq] at h0
  exact h0

theorem UpdateContainerEnvVars_frame_witness :
    ∃ out : List Container,
      (UpdateContainerEnvVars lib common grow devfileObj envs (some containers) "debug"
          5858).containers = some out ∧
      out[1]? = some tools ∧
      (UpdateContainerEnvVars lib common grow devfileObj envs (some containers) "debug"
          5858).envs.view tools.Env = [{ Name := "DEBUG_PORT", Value := "9000" }] := by
  obtain ⟨out, h1, _, _, h4, h5⟩ :=
    UpdateContainerEnvVars_frame lib common grow devfileObj envs containers "debug" 5858
      debugCommand (by rfl) (by decide) (by decide) 1 tools (by rfl)
      (Or.inl ⟨{ Name := "DEBUG_PORT", Value := "9000" }, by decide, by decide⟩)
  refine ⟨out, h1, h4, ?_⟩
  rw [h5]
  decide

/-- C2, the claim as stated fails: `runtimeShort` and `runtimeLong` are both
targeted by the debug command and share one backing array, `runtimeLong` reads
`[A=1, B=2]` with no entry named `DEBUG_PORT`, and after the call it reads
`[A=1, DEBUG_PORT=5858]`, not `[A=1, B=2, DEBUG_PORT=5858]`: the append for
`runtimeShort` has overwritten `B=2`. -/
theorem UpdateContainerEnvVars_shared_loses_entry :
    lib.ShouldExecCommandRunOnContainer debugCommand.Exec runtimeLong.Name = true ∧
      sharedEnvs.view runtimeLong.Env =
        [{ Name := "A", Value := "1" }, { Name := "B", Value := "2" }] ∧
      (∀ e ∈ sharedEnvs.view runtimeLong.Env, e.Name ≠ common.EnvDebugPort) ∧
      (UpdateContainerEnvVars lib common grow devfileObj sharedEnvs
          (some [runtimeShort, runtimeLong]) "debug" 5858).containers.map
        (List.map fun c => (UpdateContainerEnvVars lib common grow devfileObj sharedEnvs
          (some [runtimeShort, runtimeLong]) "debug" 5858).envs.view c.Env) =
        some [[{ Name := "A", Value := "1" }, { Name := "DEBUG_PORT", Value := "5858" }],
              [{ Name := "A", Value := "1" }, { Name := "DEBUG_PORT", Value := "5858" }]] ∧
      [{ Name := "A", Value := "1" }, { Name := "DEBUG_PORT", Value := "5858" }] ≠
        sharedEnvs.view runtimeLong.Env ++
          [{ Name := common.EnvDebugPort, Value := Itoa 5858 }] := by
  decide

/-- C3, the claim as stated fails: `toolsLong` is not targeted by the debug
command and shares one backing array with the targeted `runtimeShort`; it reads
`[A=1, B=2]` before the call and `[A=1, DEBUG_PORT=5858]` after it. -/
theorem UpdateContainerEnvVars_shared_changes_untargeted :
    lib.ShouldExecCommandRunOnContainer debugCommand.Exec toolsLong.Name = false ∧
      sharedEnvs.view toolsLong.Env =
        [{ Name := "A", Value := "1" }, { Name := "B", Value := "2" }] ∧
      (UpdateContainerEnvVars lib common grow devfileObj sharedEnvs
          (some [runtimeShort, toolsLong]) "debug" 5858).containers.map
        (List.map fun c => (UpdateContainerEnvVars lib common grow devfileObj sharedEnvs
          (some [runtimeShort, toolsLong]) "debug" 5858).envs.view c.Env) =
        some [[{ Name := "A", Value := "1" }, { Name := "DEBUG_PORT", Value := "5858" }],
              [{ Name := "A", Value := "1" }, { Name := "DEBUG_PORT", Value := "5858" }]] ∧
      [{ Name := "A", Value := "1" }, { Name := "DEBUG_PORT", Value := "5858" }] ≠
        sharedEnvs.view toolsLong.Env := by
  decide

theorem UpdateContainerEnvVars_error_witness :
    (UpdateContainerEnvVars lib common grow devfileObj envs (some containers) "attach"
          5858).containers = none ∧
      (UpdateContainerEnvVars lib common grow devfileObj envs (some containers) "attach"
          5858).err = some "no debug command" ∧
      (UpdateContainerEnvVars lib common grow devfileObj envs (some containers) "attach"
          5858).mem = some containers ∧
      (UpdateContainerEnvVars lib common grow devfileObj envs (some containers) "debug"
          5858).err = none ∧
      (UpdateContainerEnvVars lib common grow devfileObj envs (some containers) "debug"
          5858).containers.map List.length = some 2 := by
  have herr := (UpdateContainerEnvVars_error lib common grow devfileObj envs (some containers)
    "attach" 5858).2.1 "no debug command" (by rfl)
  have hok := (UpdateContainerEnvVars_error lib common grow devfileObj envs (some containers)
    "debug" 5858).2.2 debugCommand (by rfl)
  refine ⟨?_, ?_, ?_, hok.1, hok.2.1⟩
  · rw [herr]
  · rw [herr]
  · rw [herr]

end Example

/-! ## Theorems: `UpdateContainersEntrypointsIfNeeded` -/

namespace Utils

open Corev1

theorem overrideContainerCommandAndArgsIfNeeded_empty (c : Container)
    (hcmd : c.Command = []) (hargs : c.Args = []) :
    overrideContainerCommandAndArgsIfNeeded c =
      { c with Command := ["tail"], Args := ["-f", "/dev/null"] } := by
  simp [overrideContainerCommandAndArgsIfNeeded, hcmd, hargs]

theorem overrideContainerCommandAndArgsIfNeeded_nonempty (c : Container)
    (h : c.Command ≠ [] ∨ c.Args ≠ []) :
    overrideContainerCommandAndArgsIfNeeded c = c := by
  unfold overrideContainerCommandAndArgsIfNeeded
  rcases h with h | h
  · have : c.Command.length ≠ 0 := fun e => h (List.length_eq_zero.1 e)
    simp [this]
  · have : c.Args.length ≠ 0 := fun e => h (List.length_eq_zero.1 e)
    simp [this]

/-- Overriding twice is overriding once: the first call leaves a non-empty
`Command` behind. -/
theorem overrideContainerCommandAndArgsIfNeeded_twice (c : Container) :
    overrideContainerCommandAndArgsIfNeeded (overrideContainerCommandAndArgsIfNeeded c) =
      overrideContainerCommandAndArgsIfNeeded c := by
  by_cases h : c.Command ≠ [] ∨ c.Args ≠ []
  · rw [overrideContainerCommandAndArgsIfNeeded_nonempty c h,
      overrideContainerCommandAndArgsIfNeeded_nonempty c h]
  · have hcmd : c.Command = [] := by
      by_contra hne; exact h (Or.inl hne)
    have hargs : c.Args = [] := by
      by_contra hne; exact h (Or.inr hne)
    rw [overrideContainerCommandAndArgsIfNeeded_empty c hcmd hargs]
    exact overrideContainerCommandAndArgsIfNeeded_nonempty _ (Or.inl (by simp))

theorem overrideContainerCommandAndArgsIfNeeded_others (c : Container) :
    (overrideContainerCommandAndArgsIfNeeded c).Name = c.Name ∧
      (overrideContainerCommandAndArgsIfNeeded c).Image = c.Image ∧
      (overrideContainerCommandAndArgsIfNeeded c).WorkingDir = c.WorkingDir ∧
      (overrideContainerCommandAndArgsIfNeeded c).Env = c.Env ∧
      (overrideContainerCommandAndArgsIfNeeded c).VolumeMounts = c.VolumeMounts := by
  unfold overrideContainerCommandAndArgsIfNeeded
  split <;> simp

/-- The loop body on a container that one of the two commands targets. -/
theorem entrypointStep_targeted {D Err : Type} (lib : Libdevfile D Err)
    (runCommand debugCommand : Command) (c : Container)
    (h : lib.ShouldExecCommandRunOnContainer runCommand.Exec c.Name = true ∨
      lib.ShouldExecCommandRunOnContainer debugCommand.Exec c.Name = true) :
    entrypointStep lib runCommand debugCommand c = overrideContainerCommandAndArgsIfNeeded c := by
  unfold entrypointStep
  cases hr : lib.ShouldExecCommandRunOnContainer runCommand.Exec c.Name <;>
    cases hd : lib.ShouldExecCommandRunOnContainer debugCommand.Exec c.Name <;>
    simp [hr, hd] at h ⊢
  exact overrideContainerCommandAndArgsIfNeeded_twice c

/-- The loop body on a container that neither command targets. -/
theorem entrypointStep_untargeted {D Err : Type} (lib : Libdevfile D Err)
    (runCommand debugCommand : Command) (c : Container)
    (hr : lib.ShouldExecCommandRunOnContainer runCommand.Exec c.Name = false)
    (hd : lib.ShouldExecCommandRunOnContainer debugCommand.Exec c.Name = false) :
    entrypointStep lib runCommand debugCommand c = c := by
  simp [entrypointStep, hr, hd]

/-- C4: when the run and the debug command both resolve, a container that the run
command or the debug command targets comes out as one call of
`overrideContainerCommandAndArgsIfNeeded` leaves it, whether one of the commands
targets it or both do; when its `Command` and `Args` are both empty, that is the
container with `Command` set to `["tail"]` and `Args` to `["-f", "/dev/null"]`. -/
theorem UpdateContainersEntrypointsIfNeeded_overrides {D Err : Type} (lib : Libdevfile D Err)
    (devfileObj : DevfileObj D) (cs : List Container)
    (devfileRunCmd devfileDebugCmd : String) (runCommand debugCommand : Command)
    (hrun : lib.GetRunCommand devfileObj.Data devfileRunCmd = .ok runCommand)
    (hdebug : lib.GetDebugCommand devfileObj.Data devfileDebugCmd = .ok debugCommand)
    (i : Nat) (c : Container) (hc : cs[i]? = some c)
    (htarget : lib.ShouldExecCommandRunOnContainer runCommand.Exec c.Name = true ∨
      lib.ShouldExecCommandRunOnContainer debugCommand.Exec c.Name = true) :
    ∃ out : List Container,
      (UpdateContainersEntrypointsIfNeeded lib devfileObj (some cs) devfileRunCmd
          devfileDebugCmd).containers = some out ∧
      (UpdateContainersEntrypointsIfNeeded lib devfileObj (some cs) devfileRunCmd
          devfileDebugCmd).mem = some out ∧
      out.length = cs.length ∧
      out[i]? = some (overrideContainerCommandAndArgsIfNeeded c) ∧
      (c.Command = [] ∧ c.Args = [] →
        out[i]? = some { c with Command := ["tail"], Args := ["-f", "/dev/null"] }) := by
  have hi : (cs.map (entrypointStep lib runCommand debugCommand))[i]? =
      some (overrideContainerCommandAndArgsIfNeeded c) := by
    rw [List.getElem?_map, hc, Option.map_some', entrypointStep_targeted lib _ _ c htarget]
  refine ⟨cs.map (entrypointStep lib runCommand debugCommand), ?_, ?_, ?_, hi, ?_⟩
  · rw [UpdateContainersEntrypointsIfNeeded_ok lib devfileObj _ _ _ runCommand debugCommand
      hrun hdebug]; rfl
  · rw [UpdateContainersEntrypointsIfNeeded_ok lib devfileObj _ _ _ runCommand debugCommand
      hrun hdebug]; rfl
  · simp
  · rintro ⟨hcmd, hargs⟩
    rw [hi, overrideContainerCommandAndArgsIfNeeded_empty c hcmd hargs]

/-- C5: when the run and the debug command both resolve, every container comes
out with its `Name`, `Image`, `WorkingDir`, `Env` and `VolumeMounts` as they
were; a container whose `Command` or `Args` is non-empty, and a container that
neither command targets, comes out equal to what it was in every field. -/
theorem UpdateContainersEntrypointsIfNeeded_frame {D Err : Type} (lib : Libdevfile D Err)
    (devfileObj : DevfileObj D) (cs : List Container)
    (devfileRunCmd devfileDebugCmd : String) (runCommand debugCommand : Command)
    (hrun : lib.GetRunCommand devfileObj.Data devfileRunCmd = .ok runCommand)
    (hdebug : lib.GetDebugCommand devfileObj.Data devfileDebugCmd = .ok debugCommand)
    (i : Nat) (c : Container) (hc : cs[i]? = some c) :
    ∃ (out : List Container) (c' : Container),
      (UpdateContainersEntrypointsIfNeeded lib devfileObj (some cs) devfileRunCmd
          devfileDebugCmd).containers = some out ∧
      (UpdateContainersEntrypointsIfNeeded lib devfileObj (some cs) devfileRunCmd
          devfileDebugCmd).mem = some out ∧
      out.length = cs.length ∧
      out[i]? = some c' ∧
      (c.Command ≠ [] ∨ c.Args ≠ [] → c' = c) ∧
      (lib.ShouldExecCommandRunOnContainer runCommand.Exec c.Name = false ∧
        lib.ShouldExecCommandRunOnContainer debugCommand.Exec c.Name = false → c' = c) ∧
      c'.Name = c.Name ∧ c'.Image = c.Image ∧ c'.WorkingDir = c.WorkingDir ∧
      c'.Env = c.Env ∧ c'.VolumeMounts = c.VolumeMounts := by
  have hcases : entrypointStep lib runCommand debugCommand c = c ∨
      entrypointStep lib runCommand debugCommand c = overrideContainerCommandAndArgsIfNeeded c := by
    by_cases h : lib.ShouldExecCommandRunOnContainer runCommand.Exec c.Name = true ∨
        lib.ShouldExecCommandRunOnContainer debugCommand.Exec c.Name = true
    · exact Or.inr (entrypointStep_targeted lib _ _ c h)
    · refine Or.inl (entrypointStep_untargeted lib _ _ c ?_ ?_)
      · cases hr : lib.ShouldExecCommandRunOnContainer runCommand.Exec c.Name
        · rfl
        · exact absurd (Or.inl hr) h
      · cases hd : lib.ShouldExecCommandRunOnContainer debugCommand.Exec c.Name
        · rfl
        · exact absurd (Or.inr hd) h
  refine ⟨cs.map (entrypointStep lib runCommand debugCommand),
    entrypointStep lib runCommand debugCommand c, ?_, ?_, ?_, ?_, ?_, ?_, ?_⟩
  · rw [UpdateContainersEntrypointsIfNeeded_ok lib devfileObj _ _ _ runCommand debugCommand
      hrun hdebug]; rfl
  · rw [UpdateContainersEntrypointsIfNeeded_ok lib devfileObj _ _ _ runCommand debugCommand
      hrun hdebug]; rfl
  · simp
  · rw [List.getElem?_map, hc, Option.map_some']
  · intro hne
    rcases hcases with h | h
    · exact h
    · rw [h, overrideContainerCommandAndArgsIfNeeded_nonempty c hne]
  · rintro ⟨hr, hd⟩
    exact entrypointStep_untargeted lib _ _ c hr hd
  · rcases hcases with h | h
    · rw [h]; exact ⟨rfl, rfl, rfl, rfl, rfl⟩
    · rw [h]; exact overrideContainerCommandAndArgsIfNeeded_others c

/-- C10: `UpdateContainersEntrypointsIfNeeded` returns an error exactly when
resolving the run command or resolving the debug command fails. When the run
command fails, the call returns a nil list and the run command's error and leaves
the caller's slice as it was, whatever the debug command's resolution would
give; when the run command resolves and the debug command fails, it returns a
nil list and the debug command's error and leaves the caller's slice as it was. -/
theorem UpdateContainersEntrypointsIfNeeded_error {D Err : Type} (lib : Libdevfile D Err)
    (devfileObj : DevfileObj D) (containers : Option (List Container))
    (devfileRunCmd devfileDebugCmd : String) :
    ((UpdateContainersEntrypointsIfNeeded lib devfileObj containers devfileRunCmd
          devfileDebugCmd).err ≠ none ↔
        (∃ e, lib.GetRunCommand devfileObj.Data devfileRunCmd = .error e) ∨
        (∃ e, lib.GetDebugCommand devfileObj.Data devfileDebugCmd = .error e)) ∧
      (∀ e, lib.GetRunCommand devfileObj.Data devfileRunCmd = .error e →
        ∀ getDebugCommand : D → String → Except Err Command,
          UpdateContainersEntrypointsIfNeeded { lib with GetDebugCommand := getDebugCommand }
              devfileObj containers devfileRunCmd devfileDebugCmd =
            { containers := none, err := some e, mem := containers }) ∧
      (∀ runCommand e, lib.GetRunCommand devfileObj.Data devfileRunCmd = .ok runCommand →
        lib.GetDebugCommand devfileObj.Data devfileDebugCmd = .error e →
        UpdateContainersEntrypointsIfNeeded lib devfileObj containers devfileRunCmd
            devfileDebugCmd =
          { containers := none, err := some e, mem := containers }) := by
  refine ⟨?_, ?_, ?_⟩
  · unfold UpdateContainersEntrypointsIfNeeded
    cases hr : lib.GetRunCommand devfileObj.Data devfileRunCmd with
    | error e => simp
    | ok runCommand =>
      cases hd : lib.GetDebugCommand devfileObj.Data devfileDebugCmd with
      | error e => simp
      | ok debugCommand => simp
  · intro e hr getDebugCommand
    unfold UpdateContainersEntrypointsIfNeeded
    simp only [hr]
  · intro runCommand e hr hd
    unfold UpdateContainersEntrypointsIfNeeded
    simp only [hr, hd]

end Utils

namespace Example

open Corev1 Utils

theorem UpdateContainersEntrypointsIfNeeded_overrides_witness :
    ∃ out : List Container,
      (UpdateContainersEntrypointsIfNeeded lib devfileObj (some containers) "run"
          "debug").containers = some out ∧
      out[0]? = some { runtime with Command := ["tail"], Args := ["-f", "/dev/null"] } := by
  obtain ⟨out, h1, _, _, _, h5⟩ :=
    UpdateContainersEntrypointsIfNeeded_overrides lib devfileObj containers "run" "debug"
      { Id := "run", Exec := some { Component := "runtime", CommandLine := "npm start" } }
      { Id := "debug", Exec := some { Component := "runtime", CommandLine := "npm run debug" } }
      (by rfl) (by rfl) 0 runtime (by rfl) (Or.inl (by decide))
  exact ⟨out, h1, h5 ⟨rfl, rfl⟩⟩

theorem UpdateContainersEntrypointsIfNeeded_frame_witness :
    ∃ out : List Container,
      (UpdateContainersEntrypointsIfNeeded lib devfileObj (some containers) "run"
          "debug").containers = some out ∧
      out[1]? = some tools := by
  obtain ⟨out, c', h1, _, _, h4, h5, _⟩ :=
    UpdateContainersEntrypointsIfNeeded_frame lib devfileObj containers "run" "debug"
      { Id := "run", Exec := some { Component := "runtime", CommandLine := "npm start" } }
      { Id := "debug", Exec := some { Component := "runtime", CommandLine := "npm run debug" } }
      (by rfl) (by rfl) 1 tools (by rfl)
  refine ⟨out, h1, ?_⟩
  rw [h4, h5 (Or.inl (by decide))]

theorem UpdateContainersEntrypointsIfNeeded_error_witness :
    UpdateContainersEntrypointsIfNeeded lib devfileObj (some containers) "build" "debug" =
        { containers := none, err := some "no run command", mem := some containers } ∧
      UpdateContainersEntrypointsIfNeeded lib devfileObj (some containers) "run" "attach" =
        { containers := none, err := some "no debug command", mem := some containers } :=
  ⟨(UpdateContainersEntrypointsIfNeeded_error lib devfileObj (some containers) "build"
      "debug").2.1 "no run command" (by rfl) lib.GetDebugCommand,
   (UpdateContainersEntrypointsIfNeeded_error lib devfileObj (some containers) "run"
      "attach").2.2 _ "no debug command" (by rfl) (by rfl)⟩

end Example

/-! ## Theorems: the volume helpers -/

namespace Utils

open Corev1

/-- C6: for every `sourcePVCName`, empty or not, `GetOdoContainerVolumes` returns
two volumes: first one named `storage.OdoSourceVolume`, then the one named
`storage.SharedDataVolumeName` whose volume source has `EmptyDir` set (to the
zero `EmptyDirVolumeSource`) and every other member nil. -/
theorem GetOdoContainerVolumes_two_volumes (storage : Storage) (sourcePVCName : String) :
    ∃ sourceVolume : Volume,
      GetOdoContainerVolumes storage sourcePVCName =
        [ sourceVolume,
          { Name := storage.SharedDataVolumeName,
            VolumeSource :=
              { HostPath := none, EmptyDir := some { Medium := "", SizeLimit := none },
                Secret := none, PersistentVolumeClaim := none, ConfigMap := none } } ] ∧
      sourceVolume.Name = storage.OdoSourceVolume := by
  unfold GetOdoContainerVolumes
  by_cases h : sourcePVCName = ""
  · subst h
    exact ⟨_, rfl, by simp⟩
  · exact ⟨_, rfl, by simp [h]⟩

/-- C7: the first volume `GetOdoContainerVolumes` returns has a
`PersistentVolumeClaim` exactly when `sourcePVCName` is non-empty; the claim's
`ClaimName` is then `sourcePVCName` and no other member of the volume source is
set; when `sourcePVCName` is empty the volume source is the zero value, with
neither a `PersistentVolumeClaim` nor an `EmptyDir`. -/
theorem GetOdoContainerVolumes_source_volume (storage : Storage) (sourcePVCName : String) :
    ∃ sourceVolume sharedVolume : Volume,
      GetOdoContainerVolumes storage sourcePVCName = [sourceVolume, sharedVolume] ∧
      (sourceVolume.VolumeSource.PersistentVolumeClaim ≠ none ↔ sourcePVCName ≠ "") ∧
      (∀ claim, sourceVolume.VolumeSource.PersistentVolumeClaim = some claim →
        claim.ClaimName = sourcePVCName) ∧
      (sourcePVCName = "" → sourceVolume.VolumeSource = VolumeSource.zero) ∧
      sourceVolume.VolumeSource.EmptyDir = none ∧
      sourceVolume.VolumeSource.HostPath = none ∧
      sourceVolume.VolumeSource.Secret = none ∧
      sourceVolume.VolumeSource.ConfigMap = none := by
  unfold GetOdoContainerVolumes
  by_cases h : sourcePVCName = ""
  · subst h
    refine ⟨_, _, rfl, ?_, ?_, ?_, ?_, ?_, ?_, ?_⟩ <;> simp [VolumeSource.zero]
  · refine ⟨_, _, rfl, ?_, ?_, ?_, ?_, ?_, ?_, ?_⟩ <;> simp [VolumeSource.zero, h]

/-- `AddOdoMandatoryVolume` on containers whose `VolumeMounts` slices are well
formed and share no backing storage. -/
theorem AddOdoMandatoryVolume_unshared (storage : Storage) (grow : Nat → Nat)
    (mounts : Go.Mem VolumeMount) (cs : List Container)
    (hwf : ∀ c ∈ cs, c.VolumeMounts.WF mounts)
    (hshare : cs.Pairwise (fun a b => a.VolumeMounts.Disjoint b.VolumeMounts)) :
    ∃ (out : List Container) (mounts' : Go.Mem VolumeMount),
      AddOdoMandatoryVolume storage grow mounts (some cs) = (some out, mounts') ∧
      out.length = cs.length ∧
      (∀ (i : Nat) (c : Container), cs[i]? = some c →
        ∃ s : Go.Slice, out[i]? = some { c with VolumeMounts := s } ∧
          mounts'.view s = mounts.view c.VolumeMounts ++ [sharedDataMount storage]) ∧
      (∀ c ∈ out, c.VolumeMounts.WF mounts') ∧
      out.Pairwise (fun a b => a.VolumeMounts.Disjoint b.VolumeMounts) := by
  obtain ⟨hA, hB, hC, _⟩ :=
    Go.runSteps_stepAppend (fun c : Container => c.VolumeMounts)
      (fun c s => { c with VolumeMounts := s })
      (fun _ _ => [sharedDataMount storage]) grow VolumeMount.zero
      (fun _ _ => rfl) cs mounts hwf hshare
  refine ⟨_, _, AddOdoMandatoryVolume_eq_runSteps storage grow mounts cs, ?_, ?_, hB, hC⟩
  · exact Go.length_runSteps _ cs mounts
  · intro i c hc
    obtain ⟨s, h1, h2, _⟩ := hA i c hc
    exact ⟨s, h1, h2⟩

/-- C8, amended: on a non-nil pointer to containers whose `VolumeMounts` slices
are well formed and share no backing storage, `AddOdoMandatoryVolume` leaves
behind the same containers in the same order, each with the shared-data mount
appended to its `VolumeMounts` and every other field as it was, and slices that
again are well formed and share no storage; it appends whether or not such a
mount is there already, so two calls append two; on the nil pointer it does
nothing. -/
theorem AddOdoMandatoryVolume_appends (storage : Storage) (grow : Nat → Nat)
    (mounts : Go.Mem VolumeMount) (cs : List Container)
    (hwf : ∀ c ∈ cs, c.VolumeMounts.WF mounts)
    (hshare : cs.Pairwise (fun a b => a.VolumeMounts.Disjoint b.VolumeMounts)) :
    (∃ (out : List Container) (mounts' : Go.Mem VolumeMount),
      AddOdoMandatoryVolume storage grow mounts (some cs) = (some out, mounts') ∧
      out.length = cs.length ∧
      (∀ (i : Nat) (c : Container), cs[i]? = some c →
        ∃ c' : Container, out[i]? = some c' ∧ c' = { c with VolumeMounts := c'.VolumeMounts } ∧
          mounts'.view c'.VolumeMounts =
            mounts.view c.VolumeMounts ++ [sharedDataMount storage]) ∧
      (∀ c ∈ out, c.VolumeMounts.WF mounts') ∧
      out.Pairwise (fun a b => a.VolumeMounts.Disjoint b.VolumeMounts)) ∧
    (∃ (out : List Container) (mounts' : Go.Mem VolumeMount),
      AddOdoMandatoryVolume storage grow
          (AddOdoMandatoryVolume storage grow mounts (some cs)).2
          (AddOdoMandatoryVolume storage grow mounts (some cs)).1 = (some out, mounts') ∧
      out.length = cs.length ∧
      ∀ (i : Nat) (c : Container), cs[i]? = some c →
        ∃ c' : Container, out[i]? = some c' ∧ c' = { c with VolumeMounts := c'.VolumeMounts } ∧
          mounts'.view c'.VolumeMounts =
            mounts.view c.VolumeMounts ++
              [sharedDataMount storage, sharedDataMount storage]) ∧
    AddOdoMandatoryVolume storage grow mounts none = (none, mounts) := by
  obtain ⟨out, mounts1, hrun, hlen, hA, hB, hC⟩ :=
    AddOdoMandatoryVolume_unshared storage grow mounts cs hwf hshare
  obtain ⟨out2, mounts2, hrun2, hlen2, hA2, _, _⟩ :=
    AddOdoMandatoryVolume_unshared storage grow mounts1 out hB hC
  refine ⟨⟨out, mounts1, hrun, hlen, ?_, hB, hC⟩, ⟨out2, mounts2, ?_, ?_, ?_⟩, rfl⟩
  · intro i c hc
    obtain ⟨s, h1, h2⟩ := hA i c hc
    exact ⟨{ c with VolumeMounts := s }, h1, rfl, h2⟩
  · rw [hrun]
    exact hrun2
  · rw [hlen2, hlen]
  · intro i c hc
    obtain ⟨s, h1, h2⟩ := hA i c hc
    obtain ⟨s2, k1, k2⟩ := hA2 i _ h1
    refine ⟨_, k1, rfl, ?_⟩
    rw [k2, h2, List.append_assoc]
    rfl

/-- `AddOdoProjectVolume` on containers whose `VolumeMounts` slices are well
formed and share no backing storage. -/
theorem AddOdoProjectVolume_unshared (storage : Storage) (common : AdaptersCommon)
    (grow : Nat → Nat) (envs : Go.Mem EnvVar) (mounts : Go.Mem VolumeMount)
    (cs : List Container)
    (hwf : ∀ c ∈ cs, c.VolumeMounts.WF mounts)
    (hshare : cs.Pairwise (fun a b => a.VolumeMounts.Disjoint b.VolumeMounts)) :
    ∃ (out : List Container) (mounts' : Go.Mem VolumeMount),
      AddOdoProjectVolume storage common grow envs mounts (some cs) = (some out, mounts') ∧
      out.length = cs.length ∧
      (∀ (i : Nat) (c : Container), cs[i]? = some c →
        ∃ s : Go.Slice, out[i]? = some { c with VolumeMounts := s } ∧
          mounts'.view s =
            mounts.view c.VolumeMounts ++ projectMounts storage common (envs.view c.Env) ∧
          (projectMounts storage common (envs.view c.Env) = [] → s = c.VolumeMounts)) ∧
      (∀ c ∈ out, c.VolumeMounts.WF mounts') ∧
      out.Pairwise (fun a b => a.VolumeMounts.Disjoint b.VolumeMounts) := by
  obtain ⟨hA, hB, hC, _⟩ :=
    Go.runSteps_stepAppend (fun c : Container => c.VolumeMounts)
      (fun c s => { c with VolumeMounts := s })
      (fun c _ => projectMounts storage common (envs.view c.Env)) grow VolumeMount.zero
      (fun _ _ => rfl) cs mounts hwf hshare
  refine ⟨_, _, AddOdoProjectVolume_eq_runSteps storage common grow envs mounts cs, ?_, hA,
    hB, hC⟩
  exact Go.length_runSteps _ cs mounts

/-- C9, amended: on a non-nil pointer to containers whose `VolumeMounts` slices
are well formed and share no backing storage, `AddOdoProjectVolume` leaves behind
the same containers in the same order, each with one mount of
`storage.OdoSourceVolume` at `v` appended to its `VolumeMounts` for each `Env`
entry named `EnvProjectsRoot` with value `v`, in `Env` order, and every other
field as it was; a container with no such entry is left as it was; on the nil
pointer it does nothing. -/
theorem AddOdoProjectVolume_appends (storage : Storage) (common : AdaptersCommon)
    (grow : Nat → Nat) (envs : Go.Mem EnvVar) (mounts : Go.Mem VolumeMount)
    (cs : List Container)
    (hwf : ∀ c ∈ cs, c.VolumeMounts.WF mounts)
    (hshare : cs.Pairwise (fun a b => a.VolumeMounts.Disjoint b.VolumeMounts)) :
    (∃ (out : List Container) (mounts' : Go.Mem VolumeMount),
      AddOdoProjectVolume storage common grow envs mounts (some cs) = (some out, mounts') ∧
      out.length = cs.length ∧
      (∀ (i : Nat) (c : Container), cs[i]? = some c →
        ∃ c' : Container, out[i]? = some c' ∧ c' = { c with VolumeMounts := c'.VolumeMounts } ∧
          mounts'.view c'.VolumeMounts =
            mounts.view c.VolumeMounts ++ projectMounts storage common (envs.view c.Env) ∧
          ((∀ e ∈ envs.view c.Env, e.Name ≠ common.EnvProjectsRoot) →
            c' = c ∧ mounts'.view c.VolumeMounts = mounts.view c.VolumeMounts))) ∧
    AddOdoProjectVolume storage common grow envs mounts none = (none, mounts) := by
  obtain ⟨out, mounts1, hrun, hlen, hA, _, _⟩ :=
    AddOdoProjectVolume_unshared storage common grow envs mounts cs hwf hshare
  refine ⟨⟨out, mounts1, hrun, hlen, ?_⟩, rfl⟩
  intro i c hc
  obtain ⟨s, h1, h2, h3⟩ := hA i c hc
  refine ⟨{ c with VolumeMounts := s }, h1, rfl, h2, ?_⟩
  intro hnone
  have hnil : projectMounts storage common (envs.view c.Env) = [] := by
    unfold projectMounts
    rw [List.map_eq_nil_iff, List.filter_eq_nil_iff]
    intro e he
    simpa using hnone e he
  have hs : s = c.VolumeMounts := h3 hnil
  subst hs
  rw [hnil, List.append_nil] at h2
  exact ⟨rfl, h2⟩

end Utils

namespace Example

open Corev1 Utils

theorem GetOdoContainerVolumes_source_volume_witness :
    (GetOdoContainerVolumes storage "").map (fun v => v.VolumeSource.PersistentVolumeClaim) =
        [none, none] ∧
      (GetOdoContainerVolumes storage "odo-pvc").map
          (fun v => v.VolumeSource.PersistentVolumeClaim) =
        [some { ClaimName := "odo-pvc", ReadOnly := false }, none] := by
  obtain ⟨sv, sh, h, hiff, _⟩ := GetOdoContainerVolumes_source_volume storage ""
  refine ⟨?_, by decide⟩
  have hnone : sv.VolumeSource.PersistentVolumeClaim = none := by
    by_contra hne
    exact (hiff.1 hne) rfl
  have hsh : sh.VolumeSource.PersistentVolumeClaim = none := by
    have h2 : (GetOdoContainerVolumes storage "")[1]? = some sh := by rw [h]; rfl
    have h3 : (GetOdoContainerVolumes storage "")[1]?.map
        (fun v => v.VolumeSource.PersistentVolumeClaim) = some none := by decide
    rw [h2] at h3
    simpa using h3
  rw [h]
  simp [hnone, hsh]

theorem AddOdoMandatoryVolume_appends_witness :
    ∃ (out : List Container) (mounts' : Go.Mem VolumeMount),
      AddOdoMandatoryVolume storage grow mounts (some containers) = (some out, mounts') ∧
      out.map (fun c => mounts'.view c.VolumeMounts) =
        [[{ Name := "odo-shared-data", ReadOnly := false,
            MountPath := "/opt/odo/", SubPath := "" }],
         [{ Name := "odo-shared-data", ReadOnly := false,
            MountPath := "/opt/odo/", SubPath := "" }]] := by
  obtain ⟨⟨out, mounts', hrun, _, _⟩, _, _⟩ :=
    AddOdoMandatoryVolume_appends storage grow mounts containers (by decide) (by decide)
  refine ⟨out, mounts', hrun, ?_⟩
  have hval : (AddOdoMandatoryVolume storage grow mounts (some containers)).1.map
      (List.map fun c =>
        (AddOdoMandatoryVolume storage grow mounts (some containers)).2.view c.VolumeMounts) =
      some [[{ Name := "odo-shared-data", ReadOnly := false,
               MountPath := "/opt/odo/", SubPath := "" }],
            [{ Name := "odo-shared-data", ReadOnly := false,
               MountPath := "/opt/odo/", SubPath := "" }]] := by
    decide
  rw [hrun] at hval
  simpa using hval

theorem AddOdoProjectVolume_appends_witness :
    ∃ (out : List Container) (mounts' : Go.Mem VolumeMount),
      AddOdoProjectVolume storage common grow envs mounts (some containers) =
        (some out, mounts') ∧
      out.map (fun c => mounts'.view c.VolumeMounts) =
        [[{ Name := "odo-projects", ReadOnly := false,
            MountPath := "/projects", SubPath := "" }],
         []] := by
  obtain ⟨⟨out, mounts', hrun, _, _⟩, _⟩ :=
    AddOdoProjectVolume_appends storage common grow envs mounts containers (by decide)
      (by decide)
  refine ⟨out, mounts', hrun, ?_⟩
  have hval : (AddOdoProjectVolume storage common grow envs mounts (some containers)).1.map
      (List.map fun c =>
        (AddOdoProjectVolume storage common grow envs mounts
          (some containers)).2.view c.VolumeMounts) =
      some [[{ Name := "odo-projects", ReadOnly := false,
               MountPath := "/projects", SubPath := "" }],
            []] := by
    decide
  rw [hrun] at hval
  simpa using hval

/-- C8, the claim as stated fails: `mountShort` and `mountLong` share one backing
array of mounts, `mountLong` reads `[pre, other]` before the call and
`[pre, shared, shared]` after it, not `[pre, other, shared]`: the append for
`mountShort` has overwritten `other`. -/
theorem AddOdoMandatoryVolume_shared_overwrites :
    sharedMounts.view mountLong.VolumeMounts = [preMount, otherMount] ∧
      (AddOdoMandatoryVolume storage grow sharedMounts (some [mountShort, mountLong])).1.map
        (List.map fun c =>
          (AddOdoMandatoryVolume storage grow sharedMounts
            (some [mountShort, mountLong])).2.view c.VolumeMounts) =
        some [[preMount, sharedDataMount storage],
              [preMount, sharedDataMount storage, sharedDataMount storage]] ∧
      [preMount, sharedDataMount storage, sharedDataMount storage] ≠
        sharedMounts.view mountLong.VolumeMounts ++ [sharedDataMount storage] := by
  decide

/-- C9, the claim as stated fails: `projectA` (with `PROJECTS_ROOT=/a`) and
`projectB` (with `PROJECTS_ROOT=/b`) have the same `VolumeMounts` slice, which
reads `[pre]` and has spare capacity; after the call `projectA` reads
`[pre, odo-projects at /b]`, not `[pre, odo-projects at /a]`. -/
theorem AddOdoProjectVolume_shared_overwrites :
    projectEnvs.view projectA.Env = [{ Name := "PROJECTS_ROOT", Value := "/a" }] ∧
      sharedMounts.view projectA.VolumeMounts = [preMount] ∧
      (AddOdoProjectVolume storage common grow projectEnvs sharedMounts
          (some [projectA, projectB])).1.map
        (List.map fun c =>
          (AddOdoProjectVolume storage common grow projectEnvs sharedMounts
            (some [projectA, projectB])).2.view c.VolumeMounts) =
        some [[preMount, { Name := "odo-projects", ReadOnly := false,
                           MountPath := "/b", SubPath := "" }],
              [preMount, { Name := "odo-projects", ReadOnly := false,
                           MountPath := "/b", SubPath := "" }]] ∧
      [preMount, { Name := "odo-projects", ReadOnly := false,
                   MountPath := "/b", SubPath := "" }] ≠
        sharedMounts.view projectA.VolumeMounts ++
          [{ Name := storage.OdoSourceVolume, ReadOnly := false,
             MountPath := "/a", SubPath := "" }] := by
  decide

end Example

/-! ## Theorems: the component state machine -/

namespace Watch

/-- The model of `Transition` lets a component that waits for its deployment
move on to `SyncOutdated`, and from there to `Ready`. -/
theorem Transition_next_stage (status : ComponentStatus) :
    (status.State = StateWaitDeployment →
        Transition status StateSyncOutdated =
          ({ status with State := StateSyncOutdated }, none)) ∧
      (status.State = StateSyncOutdated →
        Transition status StateReady = ({ status with State := StateReady }, none)) := by
  constructor
  · intro h
    unfold Transition
    rw [h]
    rfl
  · intro h
    unfold Transition
    rw [h]
    rfl

/-- C12: `Transition(component, newState)` on a component whose state is
`WaitDeployment` with `newState` equal to `Ready` fails with `InvalidTransition`
and leaves the component's status as it was. -/
theorem Transition_forward_skip (status : ComponentStatus)
    (hstate : status.State = StateWaitDeployment) :
    Transition status StateReady = (status, some TransitionError.InvalidTransition) := by
  unfold Transition
  rw [hstate]
  rfl

/-- C13, the claim as stated fails: under the comparison of the underlying
strings `StateWaitDeployment` is not below `StateSyncOutdated`, nor is
`StateSyncOutdated` below `StateReady`. -/
theorem State_order_not_lifecycle :
    ¬ ((StateWaitDeployment ≠ StateSyncOutdated ∧ StateSyncOutdated ≠ StateReady ∧
          StateWaitDeployment ≠ StateReady) ∧
        stringLess StateWaitDeployment StateSyncOutdated = true ∧
        stringLess StateSyncOutdated StateReady = true) := by
  decide

/-- C13, amended: the three `State` constants are pairwise distinct, and under
the order the `State` type carries, the comparison of the underlying strings,
they stand in the reverse of the lifecycle order:
`StateReady < StateSyncOutdated < StateWaitDeployment`. -/
theorem State_order_reversed :
    (StateWaitDeployment ≠ StateSyncOutdated ∧ StateSyncOutdated ≠ StateReady ∧
        StateWaitDeployment ≠ StateReady) ∧
      stringLess StateReady StateSyncOutdated = true ∧
      stringLess StateSyncOutdated StateWaitDeployment = true ∧
      stringLess StateWaitDeployment StateSyncOutdated = false ∧
      stringLess StateSyncOutdated StateReady = false := by
  decide

end Watch

namespace Example

theorem Transition_forward_skip_witness :
    Watch.Transition waiting Watch.StateReady =
      (waiting, some Watch.TransitionError.InvalidTransition) :=
  Watch.Transition_forward_skip waiting (by rfl)

end Example

/-! ## Theorems: `standaloneMode` -/

namespace Server

/-- C14: in the environment where `SERVICE_CATALOG_STANALONE` is set to `"true"`
and nothing else is set, `standaloneMode` returns false, where the claim, and
the comment above the function, say it returns true. -/
theorem standaloneMode_ignores_STANALONE :
    Example.stanaloneEnv "SERVICE_CATALOG_STANALONE" = some "true" ∧
      standaloneMode Example.stanaloneEnv = false := by
  decide

/-- The variable `standaloneMode` does read: it returns true if
`SERVICE_CATALOG_STANDALONE` is set to `"true"`, for every environment. -/
theorem standaloneMode_reads_STANDALONE (env : String → Option String)
    (hset : env "SERVICE_CATALOG_STANDALONE" = some "true") :
    standaloneMode env = true := by
  simp [standaloneMode, Getenv, hset]

end Server

namespace Example

theorem standaloneMode_reads_STANDALONE_witness :
    standaloneEnv "SERVICE_CATALOG_STANDALONE" = some "true" ∧
      Server.standaloneMode standaloneEnv = true :=
  ⟨by decide, Server.standaloneMode_reads_STANDALONE standaloneEnv (by decide)⟩

end Example

/-! ## Theorems: applying the two updates again, and in either order -/

namespace Utils

open Corev1

theorem overrideContainerCommandAndArgsIfNeeded_withEnv (c : Container) (env : Go.Slice) :
    overrideContainerCommandAndArgsIfNeeded { c with Env := env } =
      { overrideContainerCommandAndArgsIfNeeded c with Env := env } := by
  unfold overrideContainerCommandAndArgsIfNeeded
  split <;> rfl

/-- The loop body of `UpdateContainersEntrypointsIfNeeded` either leaves the
container alone or overrides it once, according to its name. -/
theorem entrypointStep_cases {D Err : Type} (lib : Libdevfile D Err)
    (runCommand debugCommand : Command) (c : Container) :
    ((lib.ShouldExecCommandRunOnContainer runCommand.Exec c.Name = true ∨
          lib.ShouldExecCommandRunOnContainer debugCommand.Exec c.Name = true) ∧
        ∀ c2 : Container, c2.Name = c.Name →
          entrypointStep lib runCommand debugCommand c2 =
            overrideContainerCommandAndArgsIfNeeded c2) ∨
      ((lib.ShouldExecCommandRunOnContainer runCommand.Exec c.Name = false ∧
          lib.ShouldExecCommandRunOnContainer debugCommand.Exec c.Name = false) ∧
        ∀ c2 : Container, c2.Name = c.Name →
          entrypointStep lib runCommand debugCommand c2 = c2) := by
  by_cases h : lib.ShouldExecCommandRunOnContainer runCommand.Exec c.Name = true ∨
      lib.ShouldExecCommandRunOnContainer debugCommand.Exec c.Name = true
  · refine Or.inl ⟨h, fun c2 hc2 => ?_⟩
    exact entrypointStep_targeted lib _ _ c2 (by rw [hc2]; exact h)
  · have hr : lib.ShouldExecCommandRunOnContainer runCommand.Exec c.Name = false := by
      cases hr : lib.ShouldExecCommandRunOnContainer runCommand.Exec c.Name
      · rfl
      · exact absurd (Or.inl hr) h
    have hd : lib.ShouldExecCommandRunOnContainer debugCommand.Exec c.Name = false := by
      cases hd : lib.ShouldExecCommandRunOnContainer debugCommand.Exec c.Name
      · rfl
      · exact absurd (Or.inr hd) h
    refine Or.inr ⟨⟨hr, hd⟩, fun c2 hc2 => ?_⟩
    exact entrypointStep_untargeted lib _ _ c2 (by rw [hc2]; exact hr) (by rw [hc2]; exact hd)

theorem entrypointStep_Name {D Err : Type} (lib : Libdevfile D Err)
    (runCommand debugCommand : Command) (c : Container) :
    (entrypointStep lib runCommand debugCommand c).Name = c.Name := by
  rcases entrypointStep_cases lib runCommand debugCommand c with ⟨_, h⟩ | ⟨_, h⟩
  · rw [h c rfl]; exact (overrideContainerCommandAndArgsIfNeeded_others c).1
  · rw [h c rfl]

theorem entrypointStep_Env {D Err : Type} (lib : Libdevfile D Err)
    (runCommand debugCommand : Command) (c : Container) :
    (entrypointStep lib runCommand debugCommand c).Env = c.Env := by
  rcases entrypointStep_cases lib runCommand debugCommand c with ⟨_, h⟩ | ⟨_, h⟩
  · rw [h c rfl]; exact (overrideContainerCommandAndArgsIfNeeded_others c).2.2.2.1
  · rw [h c rfl]

theorem entrypointStep_withEnv {D Err : Type} (lib : Libdevfile D Err)
    (runCommand debugCommand : Command) (c : Container) (env : Go.Slice) :
    entrypointStep lib runCommand debugCommand { c with Env := env } =
      { entrypointStep lib runCommand debugCommand c with Env := env } := by
  rcases entrypointStep_cases lib runCommand debugCommand c with ⟨_, h⟩ | ⟨_, h⟩
  · rw [h c rfl, h { c with Env := env } rfl, overrideContainerCommandAndArgsIfNeeded_withEnv]
  · rw [h c rfl, h { c with Env := env } rfl]

/-- The loop body of `UpdateContainersEntrypointsIfNeeded` does nothing to its
own result. -/
theorem entrypointStep_twice {D Err : Type} (lib : Libdevfile D Err)
    (runCommand debugCommand : Command) (c : Container) :
    entrypointStep lib runCommand debugCommand (entrypointStep lib runCommand debugCommand c) =
      entrypointStep lib runCommand debugCommand c := by
  have hname := entrypointStep_Name lib runCommand debugCommand c
  rcases entrypointStep_cases lib runCommand debugCommand c with ⟨_, h⟩ | ⟨_, h⟩
  · rw [h _ hname, h c rfl]
    exact overrideContainerCommandAndArgsIfNeeded_twice c
  · rw [h _ hname, h c rfl]

theorem envVarStep_Name {D Err : Type} (lib : Libdevfile D Err) (common : AdaptersCommon)
    (grow : Nat → Nat) (debugCommand : Command) (devfileDebugPort : Int)
    (m : Go.Mem EnvVar) (c : Container) :
    (envVarStep lib common grow debugCommand devfileDebugPort m c).1.Name = c.Name := by
  unfold envVarStep
  split
  · split <;> rfl
  · rfl

/-- The loop body of `UpdateContainerEnvVars` looks at the name and the `Env` of a
container only, so the entrypoint update can be made before it or after it. -/
theorem envVarStep_entrypointStep {D Err : Type} (lib : Libdevfile D Err)
    (common : AdaptersCommon) (grow : Nat → Nat) (runCommand debugCommand debugCommand2 : Command)
    (devfileDebugPort : Int) (m : Go.Mem EnvVar) (c : Container) :
    envVarStep lib common grow debugCommand2 devfileDebugPort m
        (entrypointStep lib runCommand debugCommand c) =
      (entrypointStep lib runCommand debugCommand
          (envVarStep lib common grow debugCommand2 devfileDebugPort m c).1,
        (envVarStep lib common grow debugCommand2 devfileDebugPort m c).2) := by
  have hname := entrypointStep_Name lib runCommand debugCommand c
  have henv := entrypointStep_Env lib runCommand debugCommand c
  have key : ∀ c2 : Container, c2.Name = c.Name → c2.Env = c.Env →
      envVarStep lib common grow debugCommand2 devfileDebugPort m c2 =
        if lib.ShouldExecCommandRunOnContainer debugCommand2.Exec c.Name = true ∧
            isEnvPresent (m.view c.Env) common.EnvDebugPort = false then
          ({ c2 with Env := (Go.append grow EnvVar.zero m c.Env
              { Name := common.EnvDebugPort, Value := Itoa devfileDebugPort }).1 },
            (Go.append grow EnvVar.zero m c.Env
              { Name := common.EnvDebugPort, Value := Itoa devfileDebugPort }).2)
        else (c2, m) := by
    intro c2 hn he
    unfold envVarStep
    rw [hn, he]
    by_cases ht : lib.ShouldExecCommandRunOnContainer debugCommand2.Exec c.Name = true
    · by_cases hp : isEnvPresent (m.view c.Env) common.EnvDebugPort = true
      · simp [ht, hp]
      · simp [ht, hp]
    · simp [ht]
  rw [key _ hname henv, key c rfl rfl]
  split
  · exact Prod.ext
      (entrypointStep_withEnv lib runCommand debugCommand c
        (Go.append grow EnvVar.zero m c.Env
          { Name := common.EnvDebugPort, Value := Itoa devfileDebugPort }).1).symm rfl
  · rfl

/-- A run of steps that keep `p` of every element keeps `p` of the list. -/
theorem runSteps_preserves {α C β : Type} (f : Go.Mem α → C → C × Go.Mem α) (p : C → β)
    (h : ∀ (m : Go.Mem α) (c : C), p (f m c).1 = p c) (cs : List C) :
    ∀ m : Go.Mem α, (Go.runSteps f cs m).1.map p = cs.map p := by
  induction cs with
  | nil => intro m; rfl
  | cons c cs ih =>
    intro m
    simp only [Go.runSteps, List.map_cons, h, ih]

/-- After `UpdateContainerEnvVars` has run over containers with well-formed `Env`
slices, whether or not they share storage, its loop body has nothing left to
add to any of them. -/
theorem envVarStep_settled {D Err : Type} (lib : Libdevfile D Err)
    (common : AdaptersCommon) (grow : Nat → Nat) (debugCommand : Command)
    (devfileDebugPort : Int) (envs : Go.Mem EnvVar) (cs : List Container)
    (hwf : ∀ c ∈ cs, c.Env.WF envs) :
    Go.runSteps (envVarStep lib common grow debugCommand devfileDebugPort)
        (Go.runSteps (envVarStep lib common grow debugCommand devfileDebugPort) cs envs).1
        (Go.runSteps (envVarStep lib common grow debugCommand devfileDebugPort) cs envs).2 =
      Go.runSteps (envVarStep lib common grow debugCommand devfileDebugPort) cs envs := by
  rw [envVarStep_eq_stepAppend]
  obtain ⟨hA, _⟩ :=
    Go.runSteps_settled (fun c : Container => c.Env) (fun c s => { c with Env := s })
      (debugPortEntries lib common debugCommand devfileDebugPort) grow EnvVar.zero
      (fun e : EnvVar => e.Name = common.EnvDebugPort)
      (fun _ _ => rfl) (fun _ _ _ => rfl)
      (by
        intro c l x hx
        rcases debugPortEntries_cases lib common debugCommand devfileDebugPort c l with h | h
        · rw [h] at hx; simp at hx
        · rw [h] at hx
          simp only [List.mem_singleton] at hx
          rw [hx]
          rfl)
      (fun c l hex => debugPortEntries_present lib common debugCommand devfileDebugPort c l hex)
      (by
        intro c l l' hnil hover
        by_cases ht : lib.ShouldExecCommandRunOnContainer debugCommand.Exec c.Name = true
        · have hp : isEnvPresent l common.EnvDebugPort = true := by
            by_contra hp
            simp [debugPortEntries, ht, hp] at hnil
          have hex := (isEnvPresent_eq_true_iff _ _).1 hp
          exact debugPortEntries_present lib common debugCommand devfileDebugPort c l'
            (Go.Overwritten.exists _ hover hex)
        · have hf : lib.ShouldExecCommandRunOnContainer debugCommand.Exec c.Name = false := by
            simpa using ht
          exact debugPortEntries_untargeted lib common debugCommand devfileDebugPort c l' hf)
      cs envs hwf
  apply Go.runSteps_noop
  intro c hc
  obtain ⟨_, hnil⟩ := hA c hc
  simp only [Go.stepAppend]
  rw [hnil, Go.appendAll_nil]

/-- C15, amended: when `UpdateContainerEnvVars` succeeds on containers whose `Env`
slices are well formed, applying it once more to the list it returned, with the
same arguments and in the memory it left, gives the same outcome: the same list,
the same memory and no error; this holds whether or not the slices share backing
storage, and for the nil list. When moreover no two of the slices share backing
storage, a container of the input comes out with its `Env` reading as it did, or
with the one `EnvDebugPort` entry at its end, never two. -/
theorem UpdateContainerEnvVars_idempotent {D Err : Type} (lib : Libdevfile D Err)
    (common : AdaptersCommon) (grow : Nat → Nat) (devfileObj : DevfileObj D)
    (envs : Go.Mem EnvVar) (cs : List Container)
    (devfileDebugCmd : String) (devfileDebugPort : Int)
    (hok : (UpdateContainerEnvVars lib common grow devfileObj envs (some cs) devfileDebugCmd
      devfileDebugPort).err = none)
    (hwf : ∀ c ∈ cs, c.Env.WF envs) :
    UpdateContainerEnvVars lib common grow devfileObj
        (UpdateContainerEnvVars lib common grow devfileObj envs (some cs) devfileDebugCmd
          devfileDebugPort).envs
        (UpdateContainerEnvVars lib common grow devfileObj envs (some cs) devfileDebugCmd
          devfileDebugPort).containers devfileDebugCmd devfileDebugPort =
      UpdateContainerEnvVars lib common grow devfileObj envs (some cs) devfileDebugCmd
        devfileDebugPort ∧
    UpdateContainerEnvVars lib common grow devfileObj
        (UpdateContainerEnvVars lib common grow devfileObj envs none devfileDebugCmd
          devfileDebugPort).envs
        (UpdateContainerEnvVars lib common grow devfileObj envs none devfileDebugCmd
          devfileDebugPort).containers devfileDebugCmd devfileDebugPort =
      UpdateContainerEnvVars lib common grow devfileObj envs none devfileDebugCmd
        devfileDebugPort ∧
    (cs.Pairwise (fun a b => a.Env.Disjoint b.Env) →
      ∀ (i : Nat) (c : Container), cs[i]? = some c →
        ∃ (out : List Container) (c' : Container),
          (UpdateContainerEnvVars lib common grow devfileObj envs (some cs) devfileDebugCmd
            devfileDebugPort).containers = some out ∧
          out[i]? = some c' ∧ c' = { c with Env := c'.Env } ∧
          ((UpdateContainerEnvVars lib common grow devfileObj envs (some cs) devfileDebugCmd
              devfileDebugPort).envs.view c'.Env = envs.view c.Env ∨
            (UpdateContainerEnvVars lib common grow devfileObj envs (some cs) devfileDebugCmd
              devfileDebugPort).envs.view c'.Env =
              envs.view c.Env ++ [debugPortEntry common devfileDebugPort])) := by
  obtain ⟨debugCommand, hdebug⟩ :=
    UpdateContainerEnvVars_resolved lib common grow devfileObj envs (some cs) devfileDebugCmd
      devfileDebugPort hok
  refine ⟨?_, ?_, ?_⟩
  · rw [UpdateContainerEnvVars_ok lib common grow devfileObj envs cs _ _ debugCommand hdebug]
    simp only []
    rw [UpdateContainerEnvVars_ok lib common grow devfileObj _ _ _ _ debugCommand hdebug,
      envVarStep_settled lib common grow debugCommand devfileDebugPort envs cs hwf]
  · rw [UpdateContainerEnvVars_ok_nil lib common grow devfileObj envs _ _ debugCommand hdebug]
    simp only []
    rw [UpdateContainerEnvVars_ok_nil lib common grow devfileObj envs _ _ debugCommand hdebug]
  · intro hshare i c hc
    obtain ⟨out, envs', hout, _, hA, _, _⟩ :=
      UpdateContainerEnvVars_unshared lib common grow devfileObj envs cs devfileDebugCmd
        devfileDebugPort debugCommand hdebug hwf hshare
    obtain ⟨s, h1, h2, _⟩ := hA i c hc
    refine ⟨out, { c with Env := s }, ?_, h1, rfl, ?_⟩
    · rw [hout]
    · rw [hout]
      rcases debugPortEntries_cases lib common debugCommand devfileDebugPort c
        (envs.view c.Env) with h | h
      · left
        rw [h, List.append_nil] at h2
        exact h2
      · right
        rw [h] at h2
        exact h2

/-- C16: when the run and the debug command both resolve, applying
`UpdateContainersEntrypointsIfNeeded` once more to the list it returned, with the
same arguments, gives the same outcome: the same list and no error. -/
theorem UpdateContainersEntrypointsIfNeeded_idempotent {D Err : Type}
    (lib : Libdevfile D Err) (devfileObj : DevfileObj D) (containers : Option (List Container))
    (devfileRunCmd devfileDebugCmd : String) (runCommand debugCommand : Command)
    (hrun : lib.GetRunCommand devfileObj.Data devfileRunCmd = .ok runCommand)
    (hdebug : lib.GetDebugCommand devfileObj.Data devfileDebugCmd = .ok debugCommand) :
    UpdateContainersEntrypointsIfNeeded lib devfileObj
        (UpdateContainersEntrypointsIfNeeded lib devfileObj containers devfileRunCmd
          devfileDebugCmd).containers devfileRunCmd devfileDebugCmd =
      UpdateContainersEntrypointsIfNeeded lib devfileObj containers devfileRunCmd
        devfileDebugCmd ∧
    (UpdateContainersEntrypointsIfNeeded lib devfileObj containers devfileRunCmd
        devfileDebugCmd).err = none := by
  have hfun : (entrypointStep lib runCommand debugCommand) ∘
      (entrypointStep lib runCommand debugCommand) =
      entrypointStep lib runCommand debugCommand :=
    funext fun c => entrypointStep_twice lib runCommand debugCommand c
  rw [UpdateContainersEntrypointsIfNeeded_ok lib devfileObj containers _ _ runCommand
      debugCommand hrun hdebug,
    UpdateContainersEntrypointsIfNeeded_ok lib devfileObj _ _ _ runCommand debugCommand
      hrun hdebug]
  refine ⟨?_, rfl⟩
  cases containers with
  | none => rfl
  | some cs => simp [hfun]

/-- C17: when the run and the debug command both resolve, updating the env vars
and then the entrypoints gives the same outcome as updating the entrypoints and
then the env vars: the same list, the same memory of the `Env` slices and no
error, whether or not slices share backing storage. In both orders the list that
comes out has the names of the input's containers, in the input's order, so as
many containers as the input. -/
theorem UpdateContainerEnvVars_UpdateContainersEntrypointsIfNeeded_comm {D Err : Type}
    (lib : Libdevfile D Err) (common : AdaptersCommon) (grow : Nat → Nat)
    (devfileObj : DevfileObj D) (envs : Go.Mem EnvVar)
    (containers : Option (List Container)) (devfileRunCmd devfileDebugCmd : String)
    (devfileDebugPort : Int) (runCommand debugCommand : Command)
    (hrun : lib.GetRunCommand devfileObj.Data devfileRunCmd = .ok runCommand)
    (hdebug : lib.GetDebugCommand devfileObj.Data devfileDebugCmd = .ok debugCommand) :
    (UpdateContainersEntrypointsIfNeeded lib devfileObj
        (UpdateContainerEnvVars lib common grow devfileObj envs containers devfileDebugCmd
          devfileDebugPort).containers devfileRunCmd devfileDebugCmd).containers =
      (UpdateContainerEnvVars lib common grow devfileObj envs
        (UpdateContainersEntrypointsIfNeeded lib devfileObj containers devfileRunCmd
          devfileDebugCmd).containers devfileDebugCmd devfileDebugPort).containers ∧
    (UpdateContainersEntrypointsIfNeeded lib devfileObj
        (UpdateContainerEnvVars lib common grow devfileObj envs containers devfileDebugCmd
          devfileDebugPort).containers devfileRunCmd devfileDebugCmd).mem =
      (UpdateContainerEnvVars lib common grow devfileObj envs
        (UpdateContainersEntrypointsIfNeeded lib devfileObj containers devfileRunCmd
          devfileDebugCmd).containers devfileDebugCmd devfileDebugPort).mem ∧
    (UpdateContainerEnvVars lib common grow devfileObj envs containers devfileDebugCmd
        devfileDebugPort).envs =
      (UpdateContainerEnvVars lib common grow devfileObj envs
        (UpdateContainersEntrypointsIfNeeded lib devfileObj containers devfileRunCmd
          devfileDebugCmd).containers devfileDebugCmd devfileDebugPort).envs ∧
    (UpdateContainersEntrypointsIfNeeded lib devfileObj
        (UpdateContainerEnvVars lib common grow devfileObj envs containers devfileDebugCmd
          devfileDebugPort).containers devfileRunCmd devfileDebugCmd).err = none ∧
    (UpdateContainerEnvVars lib common grow devfileObj envs
        (UpdateContainersEntrypointsIfNeeded lib devfileObj containers devfileRunCmd
          devfileDebugCmd).containers devfileDebugCmd devfileDebugPort).err = none ∧
    (UpdateContainersEntrypointsIfNeeded lib devfileObj
        (UpdateContainerEnvVars lib common grow devfileObj envs containers devfileDebugCmd
          devfileDebugPort).containers devfileRunCmd devfileDebugCmd).containers.map
        (List.map fun c => c.Name) =
      containers.map (List.map fun c => c.Name) ∧
    (UpdateContainerEnvVars lib common grow devfileObj envs
        (UpdateContainersEntrypointsIfNeeded lib devfileObj containers devfileRunCmd
          devfileDebugCmd).containers devfileDebugCmd devfileDebugPort).containers.map
        (List.map fun c => c.Name) =
      containers.map (List.map fun c => c.Name) := by
  have hnameE : ∀ (l : List Container) (m : Go.Mem EnvVar),
      (Go.runSteps (envVarStep lib common grow debugCommand devfileDebugPort) l m).1.map
        (fun c => c.Name) = l.map (fun c => c.Name) :=
    runSteps_preserves _ (fun c : Container => c.Name)
      (fun m c => envVarStep_Name lib common grow debugCommand devfileDebugPort m c)
  have hnameP : ∀ l : List Container,
      (l.map (entrypointStep lib runCommand debugCommand)).map (fun c => c.Name) =
        l.map (fun c => c.Name) := by
    intro l
    rw [List.map_map]
    apply List.map_congr_left
    intro c _
    exact entrypointStep_Name lib runCommand debugCommand c
  have hP : ∀ o : Option (List Container),
      UpdateContainersEntrypointsIfNeeded lib devfileObj o devfileRunCmd devfileDebugCmd =
        { containers := o.map (List.map (entrypointStep lib runCommand debugCommand)),
          err := none,
          mem := o.map (List.map (entrypointStep lib runCommand debugCommand)) } :=
    fun o => UpdateContainersEntrypointsIfNeeded_ok lib devfileObj o _ _ runCommand
      debugCommand hrun hdebug
  cases containers with
  | none =>
    have hE := UpdateContainerEnvVars_ok_nil lib common grow devfileObj envs devfileDebugCmd
      devfileDebugPort debugCommand hdebug
    rw [hE, hP none]
    simp [hE]
  | some cs =>
    have hE : ∀ l : List Container,
        UpdateContainerEnvVars lib common grow devfileObj envs (some l) devfileDebugCmd
            devfileDebugPort =
          { containers := some (Go.runSteps
              (envVarStep lib common grow debugCommand devfileDebugPort) l envs).1,
            err := none,
            mem := some (Go.runSteps
              (envVarStep lib common grow debugCommand devfileDebugPort) l envs).1,
            envs := (Go.runSteps
              (envVarStep lib common grow debugCommand devfileDebugPort) l envs).2 } :=
      fun l => UpdateContainerEnvVars_ok lib common grow devfileObj envs l _ _ debugCommand
        hdebug
    have hmap := Go.runSteps_map (envVarStep lib common grow debugCommand devfileDebugPort)
      (entrypointStep lib runCommand debugCommand)
      (fun m c => envVarStep_entrypointStep lib common grow runCommand debugCommand
        debugCommand devfileDebugPort m c) cs envs
    rw [hE cs, hP (some cs)]
    simp only [Option.map_some']
    rw [hE, hP, hmap]
    simp only [Option.map_some', hnameP, hnameE, and_self]

end Utils

namespace Example

open Corev1 Utils

theorem UpdateContainerEnvVars_idempotent_witness :
    UpdateContainerEnvVars lib common grow devfileObj
        (UpdateContainerEnvVars lib common grow devfileObj envs (some containers) "debug"
          5858).envs
        (UpdateContainerEnvVars lib common grow devfileObj envs (some containers) "debug"
          5858).containers "debug" 5858 =
      UpdateContainerEnvVars lib common grow devfileObj envs (some containers) "debug" 5858 :=
  (UpdateContainerEnvVars_idempotent lib common grow devfileObj envs containers "debug" 5858
    (by rfl) (by decide)).1

/-- C15, the claim as stated fails: `runtimeSecond` and `runtimeFirst` are both
targeted by the debug command and share one backing array; `runtimeSecond` reads
`[B=2]` before the call, with no entry named `DEBUG_PORT`, and after one call, as
after two, it reads `[DEBUG_PORT=5858, DEBUG_PORT=5858]`: two entries of that
name, both written by this function. -/
theorem UpdateContainerEnvVars_shared_two_entries :
    lib.ShouldExecCommandRunOnContainer debugCommand.Exec runtimeSecond.Name = true ∧
      sharedEnvs.view runtimeSecond.Env = [{ Name := "B", Value := "2" }] ∧
      (∀ e ∈ sharedEnvs.view runtimeSecond.Env, e.Name ≠ common.EnvDebugPort) ∧
      ([{ Name := "DEBUG_PORT", Value := "5858" }, { Name := "DEBUG_PORT", Value := "5858" }] :
          List EnvVar).countP (fun e => e.Name == common.EnvDebugPort) = 2 ∧
      (UpdateContainerEnvVars lib common grow devfileObj sharedEnvs
          (some [runtimeSecond, runtimeFirst]) "debug" 5858).containers.map
        (List.map fun c => (UpdateContainerEnvVars lib common grow devfileObj sharedEnvs
          (some [runtimeSecond, runtimeFirst]) "debug" 5858).envs.view c.Env) =
        some [[{ Name := "DEBUG_PORT", Value := "5858" },
               { Name := "DEBUG_PORT", Value := "5858" }],
              [{ Name := "A", Value := "1" }, { Name := "DEBUG_PORT", Value := "5858" }]] ∧
      (UpdateContainerEnvVars lib common grow devfileObj
          (UpdateContainerEnvVars lib common grow devfileObj sharedEnvs
            (some [runtimeSecond, runtimeFirst]) "debug" 5858).envs
          (UpdateContainerEnvVars lib common grow devfileObj sharedEnvs
            (some [runtimeSecond, runtimeFirst]) "debug" 5858).containers
          "debug" 5858).containers.map
        (List.map fun c =>
          (UpdateContainerEnvVars lib common grow devfileObj
            (UpdateContainerEnvVars lib common grow devfileObj sharedEnvs
              (some [runtimeSecond, runtimeFirst]) "debug" 5858).envs
            (UpdateContainerEnvVars lib common grow devfileObj sharedEnvs
              (some [runtimeSecond, runtimeFirst]) "debug" 5858).containers
            "debug" 5858).envs.view c.Env) =
        some [[{ Name := "DEBUG_PORT", Value := "5858" },
               { Name := "DEBUG_PORT", Value := "5858" }],
              [{ Name := "A", Value := "1" }, { Name := "DEBUG_PORT", Value := "5858" }]] := by
  decide

theorem UpdateContainersEntrypointsIfNeeded_idempotent_witness :
    UpdateContainersEntrypointsIfNeeded lib devfileObj
        (UpdateContainersEntrypointsIfNeeded lib devfileObj (some containers) "run"
          "debug").containers "run" "debug" =
      UpdateContainersEntrypointsIfNeeded lib devfileObj (some containers) "run" "debug" :=
  (UpdateContainersEntrypointsIfNeeded_idempotent lib devfileObj (some containers) "run" "debug"
    { Id := "run", Exec := some { Component := "runtime", CommandLine := "npm start" } }
    { Id := "debug", Exec := some { Component := "runtime", CommandLine := "npm run debug" } }
    (by rfl) (by rfl)).1

theorem UpdateContainerEnvVars_UpdateContainersEntrypointsIfNeeded_comm_witness :
    (UpdateContainersEntrypointsIfNeeded lib devfileObj
        (UpdateContainerEnvVars lib common grow devfileObj envs (some containers) "debug"
          5858).containers "run" "debug").containers =
      (UpdateContainerEnvVars lib common grow devfileObj envs
        (UpdateContainersEntrypointsIfNeeded lib devfileObj (some containers) "run"
          "debug").containers "debug" 5858).containers :=
  (UpdateContainerEnvVars_UpdateContainersEntrypointsIfNeeded_comm lib common grow devfileObj
    envs (some containers) "run" "debug" 5858 runCommand debugCommand (by rfl) (by rfl)).1

end Example

end Odo
